import Mathlib

/-!
# svfs: the per-open-file read/write engine (`svfs/handle.go`)

A shallow embedding of `ObjectHandle.Read`, `ObjectHandle.Write` and
`ObjectHandle.Release`.  The handle and its target object are an explicit
state; every call returns the new state, the list of remote operations and
other effects it issued (in program order), and its result.  The outcomes
of remote operations are inputs of the call (an environment record), so a
theorem quantified over the environment covers every failure pattern.
-/

set_option autoImplicit false

namespace Svfs

/-! ## Machine integers -/

/-- Value of a `uint64` computation: reduction modulo `2^64`. -/
def u64 (n : Nat) : Nat := n % 2 ^ 64

/-- Value of an `int64` computation: two's complement wrap-around. -/
def i64 (i : Int) : Int := (i + 2 ^ 63) % 2 ^ 64 - 2 ^ 63

/-- Value of a `uint` computation (64-bit platform). -/
def uint (n : Nat) : Nat := n % 2 ^ 64

/-! ## Data model -/

abbrev Byte := Fin 256

/-- A Go `map[string]string`, as an association list with unique keys. -/
abbrev Headers := List (String × String)

/-- Map lookup `h[k]`; a missing key reads as the empty string. -/
def hGet (h : Headers) (k : String) : String := (h.lookup k).getD ""

/-- Map assignment `h[k] = v`. -/
def hSet (h : Headers) (k v : String) : Headers :=
  (k, v) :: h.filter (fun p => !(p.1 == k))

/-- The package-level configuration and constants that `handle.go` reads
(`SegmentSize`, `Encryption`, the header names), together with the two pure
helpers whose text is not part of `handle.go`: the naming of a segment from
its prefix and id, and the swift client's
`Headers.ObjectMetadata().Headers(ObjectMetaHeader)`. -/
structure Config where
  SegmentSize : Nat
  Encryption : Bool
  ObjectSizeHeader : String
  ObjectNonceHeader : String
  ManifestHeader : String
  segmentName : String → Nat → String
  metaHeaders : Headers → Headers

/-- An `io.WriteCloser` on a remote object: its destination, the bytes
written to it so far, and whether `Close` was called. -/
structure Writer where
  container : String
  path : String
  data : List Byte
  closed : Bool
  deriving DecidableEq, Repr

/-- An `io.ReadSeeker` over an object's content. -/
structure Reader where
  content : List Byte
  pos : Nat
  closer : Bool
  deriving DecidableEq, Repr

/-- The fields of `*Object` that `handle.go` touches: `c.Name`, `cs.Name`,
`path`, `so.Name`, `so.Bytes`, `segmented`, `sh`.  The mutex `m` shows up as
the `unlock` event. -/
structure Object where
  cName : String
  csName : String
  path : String
  soName : String
  soBytes : Int
  segmented : Bool
  sh : Headers
  deriving DecidableEq, Repr

/-- The struct `ObjectHandle` (handle.go:15-27). -/
structure ObjectHandle where
  target : Object
  rd : Option Reader
  wd : Option Writer
  create : Bool
  truncate : Bool
  nonce : String
  wroteSegment : Bool
  segmentID : Nat
  uploaded : Nat
  segmentPrefix : String
  segmentPath : String
  deriving DecidableEq, Repr

/-- Which operation produced a returned error. -/
inductive Err where
  | deleteSegments
  | newWriter
  | wdWrite
  | objectMove
  | initSegment
  | newReader
  | objectUpdate
  deriving DecidableEq, Repr

/-- How a call ends: a normal return with a value, a returned error, or a
method call on the nil writer (a run-time nil dereference). -/
inductive Result (α : Type) where
  | ok (a : α)
  | err (e : Err)
  | nilDeref
  deriving DecidableEq, Repr

/-- The effects a call issues, in program order.  The Boolean records
whether the remote operation succeeded. -/
inductive Event where
  | deleteSegments (container manifest : String) (ok : Bool)
  | newWriter (container path : String) (ok : Bool)
  | wdWrite (container path : String) (data : List Byte) (ok : Bool)
  | wdClose (container path : String)
  | objectMove (srcContainer srcPath dstContainer dstPath : String) (ok : Bool)
  | createManifest (container segmentsPath path : String) (ok : Bool)
  | initSegment (container path : String) (data : List Byte) (ok : Bool)
  | objectUpdate (container path : String) (headers : Headers) (ok : Bool)
  | cacheRemove (container path : String)
  | unlock
  | newReader (ok : Bool)
  | rdSeek (offset : Int)
  | rdReadFull (size : Nat)
  | rdClose
  deriving DecidableEq, Repr

/-- What one `Write` call learns from outside: the clock and the outcome of
each remote operation it may issue. -/
structure WriteEnv where
  now : Int
  freshNonce : String
  deleteSegmentsOk : Bool
  newWriterOk : Bool
  wdWriteOk : Bool
  objectMoveOk : Bool
  createManifestOk : Bool
  initSegmentOk : Bool
  deriving DecidableEq, Repr

/-- What one `Read` call learns from outside: whether the reader can be
constructed, and the object content it then streams. -/
structure ReadEnv where
  newReaderOk : Bool
  content : List Byte
  closer : Bool
  deriving DecidableEq, Repr

/-- What one `Release` call learns from outside. -/
structure ReleaseEnv where
  objectUpdateOk : Bool
  deriving DecidableEq, Repr

/-- State, effects and result of a call. -/
structure Out (α : Type) where
  fh : ObjectHandle
  events : List Event
  result : Result α

/-! ## Helpers that `handle.go` calls -/

/-- The method `Close` of the writer. -/
def Writer.close (w : Writer) : Writer := { w with closed := true }

/-- The method `Write` of the writer, when it succeeds. -/
def Writer.append (w : Writer) (d : List Byte) : Writer := { w with data := w.data ++ d }

/-- Modelled from the spec: `newWriter(container, path, &nonce)`, absent
from the sources.  "A fresh writer is opened at the object's primary path,
and a new encryption nonce is generated if encryption is enabled"; a failed
construction returns no writer. -/
def newWriter (cfg : Config) (env : WriteEnv) (container path nonce : String) :
    Option Writer × String :=
  if env.newWriterOk then
    (some ⟨container, path, [], false⟩, if cfg.Encryption then env.freshNonce else nonce)
  else (none, nonce)

/-- Modelled from the spec: `segmentPath(segmentPrefix, &segmentID)`, absent
from the sources.  The path is computed from the prefix and the current id
("the first segment path from (segmentPrefix, segmentID=0)"), and the id
moves on to "the next sequential segment". -/
def segmentPath (cfg : Config) (pfx : String) (id : Nat) : String × Nat :=
  (cfg.segmentName pfx id, uint (id + 1))

/-- Modelled from the spec: `initSegment(container, segmentPrefix,
&segmentID, so, data, &uploaded, &nonce)`, absent from the sources.  "Open a
new segment writer at the next sequential segment path (incrementing
segmentID), write the entire current chunk into it, reset
uploadedInCurrentSegment to incoming, and add incoming to the object's total
byte size."  A failure returns no writer and leaves the counters alone. -/
def initSegment (cfg : Config) (env : WriteEnv) (fh : ObjectHandle) (data : List Byte) :
    ObjectHandle × List Event × Option Err :=
  let sp := segmentPath cfg fh.segmentPrefix fh.segmentID
  if env.initSegmentOk then
    ({ fh with
        wd := some ⟨fh.target.csName, sp.1, data, false⟩
        segmentID := sp.2
        uploaded := u64 data.length
        target := { fh.target with soBytes := i64 (fh.target.soBytes + data.length) } },
      [Event.initSegment fh.target.csName sp.1 data true], none)
  else
    ({ fh with wd := none, segmentID := sp.2 },
      [Event.initSegment fh.target.csName sp.1 data false], some Err.initSegment)

/-! ## `ObjectHandle.Write` (handle.go:81-144) -/

/-- Lines 91-96: `truncate = true`, `so.Bytes = 0`, and the writer on the
object's own name. -/
def openPrimary (cfg : Config) (env : WriteEnv) (fh : ObjectHandle) (evs : List Event) :
    ObjectHandle × List Event × Option Err :=
  let nw := newWriter cfg env fh.target.cName fh.target.soName fh.nonce
  let fh1 : ObjectHandle :=
    { fh with
        truncate := true
        target := { fh.target with soBytes := 0 }
        wd := nw.1
        nonce := nw.2 }
  let evs1 := evs ++ [Event.newWriter fh.target.cName fh.target.soName env.newWriterOk]
  if env.newWriterOk then (fh1, evs1, none) else (fh1, evs1, some Err.newWriter)

/-- Lines 83-97: the block run on the first write of a handle that was not
created by this session. -/
def firstWrite (cfg : Config) (env : WriteEnv) (fh : ObjectHandle) :
    ObjectHandle × List Event × Option Err :=
  if !fh.create && !fh.truncate then
    if fh.target.segmented then
      let ev := Event.deleteSegments fh.target.csName (hGet fh.target.sh cfg.ManifestHeader)
        env.deleteSegmentsOk
      if env.deleteSegmentsOk then
        openPrimary cfg env { fh with target := { fh.target with segmented := false } } [ev]
      else (fh, [ev], some Err.deleteSegments)
    else openPrimary cfg env fh []
  else (fh, [], none)

/-- Lines 131-138: close the current writer and start the next segment with
the whole chunk. -/
def newSegment (cfg : Config) (env : WriteEnv) (fh : ObjectHandle) (evs : List Event)
    (data : List Byte) : Out Nat :=
  match fh.wd with
  | none => ⟨fh, evs, Result.nilDeref⟩
  | some w =>
    let fh1 : ObjectHandle := { fh with wd := some w.close }
    match initSegment cfg env fh1 data with
    | (fh2, evs2, some e) => ⟨fh2, evs ++ [Event.wdClose w.container w.path] ++ evs2, Result.err e⟩
    | (fh2, evs2, none) =>
      ⟨fh2, evs ++ [Event.wdClose w.container w.path] ++ evs2, Result.ok data.length⟩

/-- Lines 115-139: the branch taken when the chunk does not fit. -/
def promote (cfg : Config) (env : WriteEnv) (fh : ObjectHandle) (data : List Byte) : Out Nat :=
  if !fh.wroteSegment then
    match fh.wd with
    | none => ⟨fh, [], Result.nilDeref⟩
    | some w =>
      let pfx := fh.target.path ++ "/" ++ toString env.now
      let sp := segmentPath cfg pfx fh.segmentID
      let fh1 : ObjectHandle :=
        { fh with wd := some w.close, segmentPrefix := pfx, segmentPath := sp.1, segmentID := sp.2 }
      let evs := [Event.wdClose w.container w.path,
        Event.objectMove fh.target.cName fh.target.path fh.target.csName sp.1 env.objectMoveOk]
      if env.objectMoveOk then
        let fh2 : ObjectHandle :=
          { fh1 with wroteSegment := true, target := { fh1.target with segmented := true } }
        newSegment cfg env fh2
          (evs ++ [Event.createManifest fh.target.cName (fh.target.csName ++ "/" ++ pfx)
            fh.target.path env.createManifestOk]) data
      else ⟨fh1, evs, Result.err Err.objectMove⟩
  else newSegment cfg env fh [] data

/-- Lines 99-143: the size test and its two branches.  `len(req.Data)` is a
Go `int`, so its conversions to `uint64` and `int64` keep its value; the
additions wrap.  `SegmentSize` is read through `uint64(SegmentSize)`.  A
failed write of the writer is taken to leave the writer as it was. -/
def writeBody (cfg : Config) (env : WriteEnv) (fh : ObjectHandle) (data : List Byte) : Out Nat :=
  if u64 (fh.uploaded + data.length) ≤ u64 cfg.SegmentSize then
    match fh.wd with
    | none => ⟨fh, [], Result.nilDeref⟩
    | some w =>
      if env.wdWriteOk then
        ⟨{ fh with
            wd := some (w.append data)
            uploaded := u64 (fh.uploaded + data.length)
            target := { fh.target with soBytes := i64 (fh.target.soBytes + data.length) } },
          [Event.wdWrite w.container w.path data true], Result.ok data.length⟩
      else ⟨fh, [Event.wdWrite w.container w.path data false], Result.err Err.wdWrite⟩
  else if u64 (fh.uploaded + data.length) > u64 cfg.SegmentSize then
    promote cfg env fh data
  else ⟨fh, [], Result.ok data.length⟩

/-- The method `Write`: the result `ok k` is a return of `nil` with
`resp.Size = k`. -/
def Write (cfg : Config) (env : WriteEnv) (fh : ObjectHandle) (data : List Byte) : Out Nat :=
  match firstWrite cfg env fh with
  | (fh1, evs1, some e) => ⟨fh1, evs1, Result.err e⟩
  | (fh1, evs1, none) =>
    let out := writeBody cfg env fh1 data
    ⟨out.fh, evs1 ++ out.events, out.result⟩

/-! ## `ObjectHandle.Release` (handle.go:45-72) -/

/-- The header map built at lines 55-63 on top of `base`: the size header
carries `fmt.Sprintf("%d", so.Bytes)`, the nonce header the handle's nonce.
Go ranges over the two-entry map in an unspecified order; the entries are
stored here size first. -/
def cryptoHeaders (cfg : Config) (fh : ObjectHandle) (base : Headers) : Headers :=
  hSet (hSet base cfg.ObjectSizeHeader (toString fh.target.soBytes)) cfg.ObjectNonceHeader fh.nonce

/-- Lines 46-50: the reader, when there is one and it is an `io.Closer`, is
closed. -/
def closeReader (fh : ObjectHandle) : List Event :=
  match fh.rd with
  | some r => if r.closer then [Event.rdClose] else []
  | none => []

/-- The method `Release`.  The deferred `Unlock` runs when the function
returns, hence last on every path through the writer block. -/
def Release (cfg : Config) (env : ReleaseEnv) (fh : ObjectHandle) : Out Unit :=
  let evR : List Event := closeReader fh
  match fh.wd with
  | none => ⟨fh, evR, Result.ok ()⟩
  | some w =>
    let evW := evR ++ [Event.wdClose w.container w.path]
    if cfg.Encryption then
      let h := cryptoHeaders cfg fh (cfg.metaHeaders fh.target.sh)
      let fh1 : ObjectHandle :=
        { fh with
            wd := some w.close
            target := { fh.target with sh := cryptoHeaders cfg fh fh.target.sh } }
      let evU := evW ++ [Event.objectUpdate fh.target.cName fh.target.path h env.objectUpdateOk]
      if env.objectUpdateOk then
        ⟨fh1, evU ++ [Event.cacheRemove fh.target.cName fh.target.path, Event.unlock],
          Result.ok ()⟩
      else ⟨fh1, evU ++ [Event.unlock], Result.err Err.objectUpdate⟩
    else
      ⟨{ fh with wd := some w.close },
        evW ++ [Event.cacheRemove fh.target.cName fh.target.path, Event.unlock], Result.ok ()⟩

/-! ## `ObjectHandle.Read` (handle.go:31-42) -/

/-- The call `Seek(offset, 0)`: position from the start.  A negative offset
is an error of the stream, which `Read` does not look at. -/
def Reader.seek (r : Reader) (offset : Int) : Reader :=
  if 0 ≤ offset then { r with pos := offset.toNat } else r

/-- The call `io.ReadFull(rd, buf)` on a zeroed buffer of `size` bytes: the
bytes available from the position are copied to the front of the buffer, the
rest keeps its zeroes.  The short-read error is not looked at by `Read`. -/
def Reader.readFull (r : Reader) (size : Nat) : List Byte × Reader :=
  let got := (r.content.drop r.pos).take size
  (got ++ List.replicate (size - got.length) 0, { r with pos := r.pos + got.length })

/-- Lines 38-41, with the reader in hand. -/
def readAt (fh : ObjectHandle) (evs : List Event) (r : Reader) (offset : Int) (size : Nat) :
    Out (List Byte) :=
  let res := (r.seek offset).readFull size
  ⟨{ fh with rd := some res.2 }, evs ++ [Event.rdSeek offset, Event.rdReadFull size],
    Result.ok res.1⟩

/-- The method `Read`; `ok buf` is a return of `nil` with `resp.Data = buf`.
Modelled from the spec: `newReader(fh)`, absent from the sources, "constructs
a seekable stream over the object's current content"; the content is the
environment's. -/
def Read (env : ReadEnv) (fh : ObjectHandle) (offset : Int) (size : Nat) : Out (List Byte) :=
  match fh.rd with
  | none =>
    if env.newReaderOk then
      let r0 : Reader := ⟨env.content, 0, env.closer⟩
      readAt { fh with rd := some r0 } [Event.newReader true] r0 offset size
    else ⟨fh, [Event.newReader false], Result.err Err.newReader⟩
  | some r => readAt fh [] r offset size

/-! ## Sessions -/

/-- One `Write` request with the environment it runs in. -/
structure WriteCall where
  env : WriteEnv
  data : List Byte
  deriving DecidableEq, Repr

/-- One `Read` request with the environment it runs in. -/
structure ReadCall where
  env : ReadEnv
  offset : Int
  size : Nat
  deriving DecidableEq, Repr

/-- State, effects and results of a sequence of calls. -/
structure Run (α : Type) where
  fh : ObjectHandle
  events : List Event
  results : List (Result α)

/-- The `Write` calls of a session, in order, each on the state the previous
one left. -/
def runWrites (cfg : Config) (fh : ObjectHandle) : List WriteCall → Run Nat
  | [] => ⟨fh, [], []⟩
  | c :: cs =>
    let o := Write cfg c.env fh c.data
    let r := runWrites cfg o.fh cs
    ⟨r.fh, o.events ++ r.events, o.result :: r.results⟩

/-- The `Read` calls of a session, in order. -/
def runReads (fh : ObjectHandle) : List ReadCall → Run (List Byte)
  | [] => ⟨fh, [], []⟩
  | c :: cs =>
    let o := Read c.env fh c.offset c.size
    let r := runReads o.fh cs
    ⟨r.fh, o.events ++ r.events, o.result :: r.results⟩

/-- A call that returned normally. -/
def Result.isOk {α : Type} : Result α → Bool
  | Result.ok _ => true
  | _ => false

/-- A handle as the open handler hands it over for an existing object: not
created by this session, nothing written yet, no writer. -/
def Fresh (fh : ObjectHandle) : Prop :=
  fh.create = false ∧ fh.truncate = false ∧ fh.wd = none ∧ fh.wroteSegment = false ∧
    fh.segmentID = 0 ∧ fh.uploaded = 0

instance (fh : ObjectHandle) : Decidable (Fresh fh) := by unfold Fresh; infer_instance

/-- Total length of the chunks of a session. -/
def totalLength (calls : List WriteCall) : Nat := (calls.map (fun c => c.data.length)).sum

/-- All chunks of a session, concatenated. -/
def allData (calls : List WriteCall) : List Byte := (calls.map (fun c => c.data)).flatten

/-! ## Classifying effects -/

def Event.isUnlock : Event → Bool
  | Event.unlock => true
  | _ => false

def Event.isDeleteSegments : Event → Bool
  | Event.deleteSegments _ _ _ => true
  | _ => false

def Event.isNewWriter : Event → Bool
  | Event.newWriter _ _ _ => true
  | _ => false

/-- A step of promotion or of segment handling: the move of the primary
object, the manifest, a segment writer. -/
def Event.isPromotion : Event → Bool
  | Event.objectMove _ _ _ _ _ => true
  | Event.createManifest _ _ _ _ => true
  | Event.initSegment _ _ _ _ => true
  | _ => false

/-- The destination of a write of chunk bytes, if the effect is one. -/
def Event.writeDest : Event → Option (String × String)
  | Event.wdWrite c p _ _ => some (c, p)
  | Event.initSegment c p _ _ => some (c, p)
  | _ => none

def Event.isCacheRemove : Event → Bool
  | Event.cacheRemove _ _ => true
  | _ => false

def Event.isObjectUpdate : Event → Bool
  | Event.objectUpdate _ _ _ _ => true
  | _ => false

def Event.isNewReader : Event → Bool
  | Event.newReader _ => true
  | _ => false

/-! ## Session invariants -/

/-- The handle is writing the primary object of a target opened as `t`: the
reset has run, no segment exists, the writer on the object's own name holds
`written`, and both counters equal its length. -/
def Primary (t : Object) (fh : ObjectHandle) (written : List Byte) : Prop :=
  fh.truncate = true ∧ fh.wroteSegment = false ∧ fh.segmentID = 0 ∧
    fh.wd = some ⟨t.cName, t.soName, written, false⟩ ∧ fh.uploaded = written.length ∧
    fh.target = { t with segmented := false, soBytes := written.length }

/-- A whole write session: the `Write` calls in order, then `Release`. -/
def writeSession (cfg : Config) (renv : ReleaseEnv) (fh : ObjectHandle)
    (calls : List WriteCall) : Out Unit :=
  ⟨(Release cfg renv (runWrites cfg fh calls).fh).fh,
    (runWrites cfg fh calls).events ++ (Release cfg renv (runWrites cfg fh calls).fh).events,
    (Release cfg renv (runWrites cfg fh calls).fh).result⟩

/-! ## Sample values -/

/-- A configuration with the given segment size and encryption on. -/
def sampleCfg (segmentSize : Nat) : Config :=
  ⟨segmentSize, true, "X-Object-Meta-Crypto-Origin-Size", "X-Object-Meta-Crypto-Nonce",
    "X-Object-Manifest", fun pfx id => pfx ++ "/" ++ toString id, fun h => h⟩

/-- An unsegmented object `obj` of container `c`. -/
def sampleTarget : Object := ⟨"c", "c_segments", "obj", "obj", 0, false, []⟩

/-- A handle just opened on `sampleTarget`. -/
def sampleHandle : ObjectHandle :=
  ⟨sampleTarget, none, none, false, false, "", false, 0, 0, "", ""⟩

/-- A handle that has written five bytes to the primary object. -/
def sampleWriting : ObjectHandle :=
  ⟨{ sampleTarget with soBytes := 5 }, none, some ⟨"c", "obj", [1, 2, 3, 4, 5], false⟩, false, true,
    "n1", false, 0, 5, "", ""⟩

/-- An environment in which every remote operation succeeds. -/
def envOk : WriteEnv := ⟨1700000000, "n1", true, true, true, true, true, true⟩

/-- A segmented object whose manifest header names its segments. -/
def sampleSegmented : Object :=
  ⟨"c", "c_segments", "obj", "obj", 10, true, [("X-Object-Manifest", "c_segments/obj/1600000000")]⟩

/-- A handle just opened on `sampleSegmented`. -/
def sampleReopened : ObjectHandle :=
  ⟨sampleSegmented, none, none, false, false, "", false, 0, 0, "", ""⟩

/-- A chunk of 5 MiB of zero bytes. -/
def chunk5MiB : List Byte := List.replicate 5242880 0

/-- As `envOk`, but the deletion of the old segments fails. -/
def envDeleteFails : WriteEnv := { envOk with deleteSegmentsOk := false }

/-- As `envOk`, but the writer cannot be opened. -/
def envNewWriterFails : WriteEnv := { envOk with newWriterOk := false }

/-- As `envOk`, but the move of the primary object fails. -/
def envMoveFails : WriteEnv := { envOk with objectMoveOk := false }

/-- As `envOk`, but the creation of the manifest fails. -/
def envManifestFails : WriteEnv := { envOk with createManifestOk := false }

/-- Number of `Unlock` calls among the effects. -/
def unlocks (evs : List Event) : Nat := evs.countP Event.isUnlock

/-- The content streamed by the reader that a `Read` call uses: the one of
the reader the handle already has, or of the reader the call constructs. -/
def streamOf (env : ReadEnv) (fh : ObjectHandle) : Option (List Byte) :=
  match fh.rd with
  | some r => some r.content
  | none => if env.newReaderOk then some env.content else none

/-! ## Arithmetic of the machine integers -/

theorem u64_of_lt {n : Nat} (h : n < 2 ^ 64) : u64 n = n := Nat.mod_eq_of_lt h

theorem u64_lt (n : Nat) : u64 n < 2 ^ 64 := Nat.mod_lt _ (by norm_num)

theorem u64_le (n : Nat) : u64 n ≤ n := Nat.mod_le _ _

theorem i64_of_range {i : Int} (hlo : -2 ^ 63 ≤ i) (hhi : i < 2 ^ 63) : i64 i = i := by
  unfold i64
  rw [Int.emod_eq_of_lt (by linarith) (by linarith)]
  ring

/-- A chunk that fits keeps the size test on its first branch. -/
theorem fits_of_le {cfg : Config} {u n : Nat} (h : u + n ≤ u64 cfg.SegmentSize) :
    u64 (u + n) ≤ u64 cfg.SegmentSize ∧ u64 (u + n) = u + n := by
  have h1 : u + n < 2 ^ 64 := lt_of_le_of_lt h (u64_lt _)
  rw [u64_of_lt h1]
  exact ⟨h, rfl⟩

theorem firstWrite_skip (cfg : Config) (env : WriteEnv) (fh : ObjectHandle)
    (h : fh.create = true ∨ fh.truncate = true) : firstWrite cfg env fh = (fh, [], none) := by
  unfold firstWrite
  rcases h with h | h <;> simp [h]

/-- The reset block leaves the segment cursor alone. -/
theorem firstWrite_cursor (cfg : Config) (env : WriteEnv) (fh : ObjectHandle) :
    (firstWrite cfg env fh).1.uploaded = fh.uploaded ∧
    (firstWrite cfg env fh).1.wroteSegment = fh.wroteSegment ∧
    (firstWrite cfg env fh).1.segmentID = fh.segmentID ∧
    (firstWrite cfg env fh).1.segmentPrefix = fh.segmentPrefix ∧
    (firstWrite cfg env fh).1.segmentPath = fh.segmentPath ∧
    (∀ e ∈ (firstWrite cfg env fh).2.1, e.isPromotion = false) := by
  unfold firstWrite openPrimary
  split_ifs <;> simp [Event.isPromotion]

theorem writeBody_fit_cursor (cfg : Config) (env : WriteEnv) (fh : ObjectHandle) (data : List Byte)
    (hfit : fh.uploaded + data.length ≤ u64 cfg.SegmentSize) :
    (writeBody cfg env fh data).fh.wroteSegment = fh.wroteSegment ∧
    (writeBody cfg env fh data).fh.segmentID = fh.segmentID ∧
    (writeBody cfg env fh data).fh.segmentPrefix = fh.segmentPrefix ∧
    (writeBody cfg env fh data).fh.segmentPath = fh.segmentPath ∧
    (∀ e ∈ (writeBody cfg env fh data).events, e.isPromotion = false) := by
  unfold writeBody
  rw [if_pos (fits_of_le hfit).1]
  cases hw : fh.wd with
  | none => simp
  | some w => by_cases hk : env.wdWriteOk = true <;> simp [hk, Event.isPromotion]

theorem Write_eq (cfg : Config) (env : WriteEnv) (fh : ObjectHandle) (data : List Byte) :
    Write cfg env fh data =
      match (firstWrite cfg env fh).2.2 with
      | some e => ⟨(firstWrite cfg env fh).1, (firstWrite cfg env fh).2.1, Result.err e⟩
      | none =>
        ⟨(writeBody cfg env (firstWrite cfg env fh).1 data).fh,
          (firstWrite cfg env fh).2.1 ++ (writeBody cfg env (firstWrite cfg env fh).1 data).events,
          (writeBody cfg env (firstWrite cfg env fh).1 data).result⟩ := by
  unfold Write
  rcases hf : firstWrite cfg env fh with ⟨fh1, evs1, r⟩
  cases r <;> simp


/-- Past the reset, `Write` is its body alone. -/
theorem Write_past_reset (cfg : Config) (env : WriteEnv) (fh : ObjectHandle) (data : List Byte)
    (h : fh.create = true ∨ fh.truncate = true) :
    Write cfg env fh data = writeBody cfg env fh data := by
  rw [Write_eq, firstWrite_skip cfg env fh h]
  simp

/-- The first branch of the size test, with a writer and a successful write. -/
theorem writeBody_fit (cfg : Config) (env : WriteEnv) (fh : ObjectHandle) (data : List Byte)
    (w : Writer) (hfit : fh.uploaded + data.length ≤ u64 cfg.SegmentSize) (hw : fh.wd = some w)
    (hok : env.wdWriteOk = true) :
    writeBody cfg env fh data =
      ⟨{ fh with
          wd := some (w.append data)
          uploaded := u64 (fh.uploaded + data.length)
          target := { fh.target with soBytes := i64 (fh.target.soBytes + data.length) } },
        [Event.wdWrite w.container w.path data true], Result.ok data.length⟩ := by
  unfold writeBody
  rw [if_pos (fits_of_le hfit).1]
  simp [hw, hok]

/-- C1: a chunk of length n with uploaded + n <= SegmentSize (equality
included) never enters promotion or segment handling, from any handle
state: no move, manifest or segment writer is issued and wroteSegment,
segmentID, segmentPrefix and segmentPath keep their values.  On a handle
with an open writer (a writer is present and the session is past its
first-write reset), when the writer accepts the bytes and so.Bytes + n is an
int64, the call returns normally, its only effect is the write of the whole
chunk to that writer, uploaded and so.Bytes both grow by exactly n, and the
segmented flag keeps its value. -/
theorem C1_write_within_segment (cfg : Config) (env : WriteEnv) (fh : ObjectHandle)
    (data : List Byte) (hfit : fh.uploaded + data.length ≤ u64 cfg.SegmentSize) :
    ((∀ e ∈ (Write cfg env fh data).events, e.isPromotion = false) ∧
      (Write cfg env fh data).fh.wroteSegment = fh.wroteSegment ∧
      (Write cfg env fh data).fh.segmentID = fh.segmentID ∧
      (Write cfg env fh data).fh.segmentPrefix = fh.segmentPrefix ∧
      (Write cfg env fh data).fh.segmentPath = fh.segmentPath) ∧
    (∀ w : Writer, fh.wd = some w → (fh.create = true ∨ fh.truncate = true) →
      env.wdWriteOk = true →
      -2 ^ 63 ≤ fh.target.soBytes → fh.target.soBytes + data.length < 2 ^ 63 →
      (Write cfg env fh data).result = Result.ok data.length ∧
      (Write cfg env fh data).events = [Event.wdWrite w.container w.path data true] ∧
      (Write cfg env fh data).fh.wd = some { w with data := w.data ++ data } ∧
      (Write cfg env fh data).fh.uploaded = fh.uploaded + data.length ∧
      (Write cfg env fh data).fh.target.soBytes = fh.target.soBytes + data.length ∧
      (Write cfg env fh data).fh.target.segmented = fh.target.segmented) := by
  constructor
  · have hc := firstWrite_cursor cfg env fh
    rw [Write_eq]
    cases hr : (firstWrite cfg env fh).2.2 with
    | some e => exact ⟨by simpa using hc.2.2.2.2.2, by simpa using hc.2.1, by simpa using hc.2.2.1,
        by simpa using hc.2.2.2.1, by simpa using hc.2.2.2.2.1⟩
    | none =>
      have hb := writeBody_fit_cursor cfg env (firstWrite cfg env fh).1 data (by rw [hc.1]; exact hfit)
      simp only [List.mem_append]
      refine ⟨?_, ?_, ?_, ?_, ?_⟩
      · rintro e (he | he)
        · exact hc.2.2.2.2.2 e he
        · exact hb.2.2.2.2 e he
      · rw [hb.1, hc.2.1]
      · rw [hb.2.1, hc.2.2.1]
      · rw [hb.2.2.1, hc.2.2.2.1]
      · rw [hb.2.2.2.1, hc.2.2.2.2.1]
  · intro w hw hphase hok hlo hhi
    have hb : -2 ^ 63 ≤ fh.target.soBytes + (data.length : Int) := by
      have : (0 : Int) ≤ (data.length : Int) := Int.natCast_nonneg _
      linarith
    rw [Write_eq, firstWrite_skip cfg env fh hphase]
    simp only [writeBody_fit cfg env fh data w hfit hw hok, (fits_of_le hfit).2,
      i64_of_range hb hhi, Writer.append]
    simp

/-- C1 at the boundary: five bytes uploaded, a chunk of three, segment size
eight. -/
theorem C1_write_within_segment_witness :
    sampleWriting.uploaded + [6, 7, 8].length = u64 (sampleCfg 8).SegmentSize ∧
    (Write (sampleCfg 8) envOk sampleWriting [6, 7, 8]).result = Result.ok 3 ∧
    (Write (sampleCfg 8) envOk sampleWriting [6, 7, 8]).events =
      [Event.wdWrite "c" "obj" [6, 7, 8] true] ∧
    (Write (sampleCfg 8) envOk sampleWriting [6, 7, 8]).fh.wd =
      some ⟨"c", "obj", [1, 2, 3, 4, 5, 6, 7, 8], false⟩ ∧
    (Write (sampleCfg 8) envOk sampleWriting [6, 7, 8]).fh.uploaded = 8 ∧
    (Write (sampleCfg 8) envOk sampleWriting [6, 7, 8]).fh.target.soBytes = 8 ∧
    (Write (sampleCfg 8) envOk sampleWriting [6, 7, 8]).fh.wroteSegment = false :=
  have h := C1_write_within_segment (sampleCfg 8) envOk sampleWriting [6, 7, 8] (by decide)
  have h2 := h.2 ⟨"c", "obj", [1, 2, 3, 4, 5], false⟩ rfl (Or.inr rfl) rfl (by decide) (by decide)
  ⟨by decide, h2.1, h2.2.1, h2.2.2.1, h2.2.2.2.1, h2.2.2.2.2.1, h.1.2.1⟩

theorem initSegment_ok_length (cfg : Config) (env : WriteEnv) (fh : ObjectHandle)
    (data : List Byte) : (initSegment cfg env fh data).2.2 = none ↔ env.initSegmentOk = true := by
  unfold initSegment
  by_cases h : env.initSegmentOk = true <;> simp [h]

theorem newSegment_result (cfg : Config) (env : WriteEnv) (fh : ObjectHandle) (evs : List Event)
    (data : List Byte) (k : Nat) (h : (newSegment cfg env fh evs data).result = Result.ok k) :
    k = data.length := by
  unfold newSegment at h
  cases hw : fh.wd with
  | none => simp [hw] at h
  | some w =>
    simp only [hw] at h
    split at h
    · simp at h
    · simpa using h.symm

theorem promote_result (cfg : Config) (env : WriteEnv) (fh : ObjectHandle)
    (data : List Byte) (k : Nat) (h : (promote cfg env fh data).result = Result.ok k) :
    k = data.length := by
  unfold promote at h
  by_cases h1 : fh.wroteSegment = true
  · simp only [h1, Bool.not_true, Bool.false_eq_true, if_false] at h
    exact newSegment_result _ _ _ _ _ _ h
  · cases hw : fh.wd with
    | none => simp [h1, hw] at h
    | some w =>
      by_cases h2 : env.objectMoveOk = true
      · simp only [h1, hw, h2, Bool.not_false, if_true] at h
        exact newSegment_result _ _ _ _ _ _ h
      · simp [h1, hw, h2] at h

theorem writeBody_result (cfg : Config) (env : WriteEnv) (fh : ObjectHandle)
    (data : List Byte) (k : Nat) (h : (writeBody cfg env fh data).result = Result.ok k) :
    k = data.length := by
  unfold writeBody at h
  by_cases h1 : u64 (fh.uploaded + data.length) ≤ u64 cfg.SegmentSize
  · cases hw : fh.wd with
    | none => simp [h1, hw] at h
    | some w =>
      by_cases h3 : env.wdWriteOk = true
      · simpa [h1, hw, h3] using h.symm
      · simp [h1, hw, h3] at h
  · have h2 : u64 (fh.uploaded + data.length) > u64 cfg.SegmentSize := not_le.mp h1
    simp only [h1, h2, if_false, if_true] at h
    exact promote_result _ _ _ _ _ h

/-- C2: whenever `Write` returns normally, the size it reports in the
response is the length of the requested chunk, whichever branch placed the
chunk; no call reports part of a chunk. -/
theorem C2_reported_size (cfg : Config) (env : WriteEnv) (fh : ObjectHandle) (data : List Byte)
    (k : Nat) (h : (Write cfg env fh data).result = Result.ok k) : k = data.length := by
  rw [Write_eq] at h
  cases hr : (firstWrite cfg env fh).2.2 with
  | some e => simp [hr] at h
  | none =>
    simp only [hr] at h
    exact writeBody_result _ _ _ _ _ h

/-- C2 on a call that starts a new segment. -/
theorem C2_reported_size_witness :
    (Write (sampleCfg 8) envOk sampleWriting [6, 7, 8, 9]).result = Result.ok 4 ∧
    4 = [(6 : Byte), 7, 8, 9].length :=
  ⟨by decide, C2_reported_size (sampleCfg 8) envOk sampleWriting [6, 7, 8, 9] 4 (by decide)⟩

/-! ## Sessions on the primary object -/

theorem firstWrite_fresh (cfg : Config) (env : WriteEnv) (fh : ObjectHandle) (hf : Fresh fh)
    (hok : (firstWrite cfg env fh).2.2 = none) :
    Primary fh.target (firstWrite cfg env fh).1 [] ∧
    (firstWrite cfg env fh).2.1 =
      (if fh.target.segmented then
        [Event.deleteSegments fh.target.csName (hGet fh.target.sh cfg.ManifestHeader) true]
      else []) ++ [Event.newWriter fh.target.cName fh.target.soName true] := by
  obtain ⟨h1, h2, h3, h4, h5, h6⟩ := hf
  unfold firstWrite openPrimary newWriter at hok ⊢
  unfold Primary
  by_cases hs : fh.target.segmented = true <;> by_cases hd : env.deleteSegmentsOk = true <;>
    by_cases hn : env.newWriterOk = true <;> simp_all

theorem writeBody_primary (cfg : Config) (env : WriteEnv) (t : Object) (fh : ObjectHandle)
    (written data : List Byte) (hp : Primary t fh written)
    (hok : (writeBody cfg env fh data).result.isOk = true)
    (hfit : written.length + data.length ≤ u64 cfg.SegmentSize)
    (hrange : written.length + data.length < 2 ^ 63) :
    Primary t (writeBody cfg env fh data).fh (written ++ data) ∧
    (writeBody cfg env fh data).events = [Event.wdWrite t.cName t.soName data true] := by
  obtain ⟨h1, h2, h3, h4, h5, h6⟩ := hp
  have hfit2 : fh.uploaded + data.length ≤ u64 cfg.SegmentSize := by rw [h5]; exact hfit
  have hw : env.wdWriteOk = true := by
    by_contra hne
    unfold writeBody at hok
    rw [if_pos (fits_of_le hfit2).1] at hok
    simp [h4, hne, Result.isOk] at hok
  rw [writeBody_fit cfg env fh data _ hfit2 h4 hw]
  have hb : i64 ((written.length : Int) + data.length) = ((written ++ data).length : Int) := by
    rw [i64_of_range]
    · push_cast [List.length_append]; ring
    · have : (0 : Int) ≤ (written.length : Int) + data.length := by positivity
      linarith
    · exact_mod_cast hrange
  refine ⟨⟨h1, h2, h3, ?_, ?_, ?_⟩, rfl⟩
  · simp [Writer.append]
  · simpa [h5] using (fits_of_le hfit).2
  · simp only [h6]
    rw [hb]

theorem Write_primary (cfg : Config) (env : WriteEnv) (t : Object) (fh : ObjectHandle)
    (written data : List Byte) (hp : Primary t fh written)
    (hok : (Write cfg env fh data).result.isOk = true)
    (hfit : written.length + data.length ≤ u64 cfg.SegmentSize)
    (hrange : written.length + data.length < 2 ^ 63) :
    Primary t (Write cfg env fh data).fh (written ++ data) ∧
    (Write cfg env fh data).events = [Event.wdWrite t.cName t.soName data true] := by
  have hs := firstWrite_skip cfg env fh (Or.inr hp.1)
  rw [Write_eq, hs] at hok ⊢
  simpa using writeBody_primary cfg env t fh written data hp (by simpa using hok) hfit hrange

theorem Write_fresh (cfg : Config) (env : WriteEnv) (fh : ObjectHandle) (data : List Byte)
    (hf : Fresh fh) (hok : (Write cfg env fh data).result.isOk = true)
    (hfit : data.length ≤ u64 cfg.SegmentSize) (hrange : data.length < 2 ^ 63) :
    Primary fh.target (Write cfg env fh data).fh data ∧
    (Write cfg env fh data).events =
      (if fh.target.segmented then
        [Event.deleteSegments fh.target.csName (hGet fh.target.sh cfg.ManifestHeader) true]
      else []) ++ [Event.newWriter fh.target.cName fh.target.soName true,
        Event.wdWrite fh.target.cName fh.target.soName data true] := by
  rw [Write_eq] at hok ⊢
  cases hr : (firstWrite cfg env fh).2.2 with
  | some e => simp [hr, Result.isOk] at hok
  | none =>
    simp only [hr] at hok ⊢
    obtain ⟨hp, hev⟩ := firstWrite_fresh cfg env fh hf hr
    have hb := writeBody_primary cfg env fh.target _ [] data hp hok (by simpa using hfit)
      (by simpa using hrange)
    rw [hev, hb.2]
    exact ⟨by simpa using hb.1, by simp⟩

theorem totalLength_cons (c : WriteCall) (cs : List WriteCall) :
    totalLength (c :: cs) = c.data.length + totalLength cs := by
  simp [totalLength]

theorem allData_cons (c : WriteCall) (cs : List WriteCall) :
    allData (c :: cs) = c.data ++ allData cs := by
  simp [allData]

theorem allData_length (cs : List WriteCall) : (allData cs).length = totalLength cs := by
  induction cs with
  | nil => simp [allData, totalLength]
  | cons c cs ih => rw [allData_cons, totalLength_cons, List.length_append, ih]

theorem runWrites_primary (cfg : Config) (t : Object) (calls : List WriteCall) :
    ∀ (fh : ObjectHandle) (written : List Byte), Primary t fh written →
      (∀ r ∈ (runWrites cfg fh calls).results, r.isOk = true) →
      written.length + totalLength calls ≤ u64 cfg.SegmentSize →
      written.length + totalLength calls < 2 ^ 63 →
      Primary t (runWrites cfg fh calls).fh (written ++ allData calls) ∧
      ∀ e ∈ (runWrites cfg fh calls).events, ∃ d, e = Event.wdWrite t.cName t.soName d true := by
  induction calls with
  | nil =>
    intro fh written hp _ _ _
    simpa [runWrites, allData] using hp
  | cons c cs ih =>
    intro fh written hp hok hfit hrange
    rw [totalLength_cons] at hfit hrange
    simp only [runWrites, List.mem_cons, forall_eq_or_imp] at hok
    obtain ⟨hp1, hev1⟩ := Write_primary cfg c.env t fh written c.data hp hok.1 (by omega) (by omega)
    obtain ⟨hp2, hev2⟩ := ih _ _ hp1 hok.2 (by rw [List.length_append]; omega)
      (by rw [List.length_append]; omega)
    refine ⟨by simpa [runWrites, allData_cons] using hp2, ?_⟩
    intro e he
    simp only [runWrites, List.mem_append] at he
    rcases he with he | he
    · rw [hev1] at he
      exact ⟨c.data, by simpa using he⟩
    · exact hev2 e he

theorem Release_target (cfg : Config) (env : ReleaseEnv) (fh : ObjectHandle) :
    (Release cfg env fh).fh.target.segmented = fh.target.segmented ∧
    (Release cfg env fh).fh.target.soBytes = fh.target.soBytes ∧
    (∀ w, fh.wd = some w → (Release cfg env fh).fh.wd = some w.close) ∧
    ∀ e ∈ (Release cfg env fh).events,
      e.isPromotion = false ∧ e.isNewWriter = false ∧ e.writeDest = none := by
  unfold Release closeReader
  cases hw : fh.wd with
  | none =>
    cases hr : fh.rd with
    | none => simp
    | some r => by_cases hc : r.closer = true <;>
        simp [hc, Event.isPromotion, Event.isNewWriter, Event.writeDest]
  | some w =>
    cases hr : fh.rd with
    | none =>
      by_cases he : cfg.Encryption = true <;> by_cases hu : env.objectUpdateOk = true <;>
        simp [he, hu, Event.isPromotion, Event.isNewWriter, Event.writeDest]
    | some r =>
      by_cases hc : r.closer = true <;> by_cases he : cfg.Encryption = true <;>
        by_cases hu : env.objectUpdateOk = true <;>
        simp [hc, he, hu, Event.isPromotion, Event.isNewWriter, Event.writeDest]

/-- C3: a session that starts on a freshly opened handle (so its first
Write runs the reset), makes only successful Write calls whose lengths sum
to L <= SegmentSize (L an int64), and ends with Release, leaves the target
not segmented with so.Bytes = L; the one writer opened in the session is the
one on the object's own name, it received every chunk, and no move, manifest
or segment writer was issued.  The target may have been segmented before. -/
theorem C3_small_session (cfg : Config) (renv : ReleaseEnv) (fh : ObjectHandle) (c : WriteCall)
    (cs : List WriteCall) (hf : Fresh fh)
    (hok : ∀ r ∈ (runWrites cfg fh (c :: cs)).results, r.isOk = true)
    (hL : totalLength (c :: cs) ≤ u64 cfg.SegmentSize)
    (hrange : totalLength (c :: cs) < 2 ^ 63) :
    (writeSession cfg renv fh (c :: cs)).fh.target.segmented = false ∧
    (writeSession cfg renv fh (c :: cs)).fh.target.soBytes = totalLength (c :: cs) ∧
    (writeSession cfg renv fh (c :: cs)).fh.wd =
      some ⟨fh.target.cName, fh.target.soName, allData (c :: cs), true⟩ ∧
    (writeSession cfg renv fh (c :: cs)).events.filter Event.isNewWriter =
      [Event.newWriter fh.target.cName fh.target.soName true] ∧
    (∀ e ∈ (writeSession cfg renv fh (c :: cs)).events, e.isPromotion = false) ∧
    (∀ e ∈ (writeSession cfg renv fh (c :: cs)).events, ∀ d, e.writeDest = some d →
      d = (fh.target.cName, fh.target.soName)) := by
  rw [totalLength_cons] at hL hrange
  simp only [runWrites, List.mem_cons, forall_eq_or_imp] at hok
  obtain ⟨hp1, hev1⟩ := Write_fresh cfg c.env fh c.data hf hok.1 (by omega) (by omega)
  obtain ⟨hp2, hev2⟩ := runWrites_primary cfg fh.target cs _ _ hp1 hok.2 hL hrange
  obtain ⟨hr1, hr2, hr3, hr4⟩ := Release_target cfg renv (runWrites cfg fh (c :: cs)).fh
  have hfh : (runWrites cfg fh (c :: cs)).fh = (runWrites cfg (Write cfg c.env fh c.data).fh cs).fh :=
    rfl
  have hevs : (runWrites cfg fh (c :: cs)).events =
      (Write cfg c.env fh c.data).events ++ (runWrites cfg (Write cfg c.env fh c.data).fh cs).events :=
    rfl
  obtain ⟨-, -, -, hwd, -, htgt⟩ := hp2
  rw [← hfh] at hwd htgt
  have hmem : ∀ e ∈ (writeSession cfg renv fh (c :: cs)).events,
      e = Event.deleteSegments fh.target.csName (hGet fh.target.sh cfg.ManifestHeader) true ∨
      e = Event.newWriter fh.target.cName fh.target.soName true ∨
      (∃ d, e = Event.wdWrite fh.target.cName fh.target.soName d true) ∨
      e ∈ (Release cfg renv (runWrites cfg fh (c :: cs)).fh).events := by
    intro e he
    simp only [writeSession, hevs, hev1, List.mem_append] at he
    rcases he with ((he | he) | he) | he
    · split_ifs at he
      · left; simpa using he
      · simp at he
    · simp only [List.mem_cons, List.mem_singleton, List.not_mem_nil, or_false] at he
      rcases he with he | he
      · right; left; exact he
      · right; right; left; exact ⟨c.data, he⟩
    · right; right; left; exact hev2 e he
    · right; right; right; exact he
  refine ⟨?_, ?_, ?_, ?_, ?_, ?_⟩
  · simp only [writeSession]
    rw [hr1, htgt]
  · simp only [writeSession]
    rw [hr2, htgt, totalLength_cons, ← allData_length cs]
    simp
  · simp only [writeSession]
    rw [hr3 _ hwd, allData_cons]
    rfl
  · simp only [writeSession, hevs, hev1, List.filter_append]
    have h1 : List.filter Event.isNewWriter
        (runWrites cfg (Write cfg c.env fh c.data).fh cs).events = [] := by
      rw [List.filter_eq_nil_iff]
      intro e he
      obtain ⟨d, rfl⟩ := hev2 e he
      simp [Event.isNewWriter]
    have h2 : List.filter Event.isNewWriter
        (Release cfg renv (runWrites cfg fh (c :: cs)).fh).events = [] := by
      rw [List.filter_eq_nil_iff]
      intro e he
      simp [(hr4 e he).2.1]
    rw [h1, h2]
    split_ifs <;> simp [List.filter, Event.isNewWriter]
  · intro e he
    rcases hmem e he with rfl | rfl | ⟨d, rfl⟩ | h
    · rfl
    · rfl
    · rfl
    · exact (hr4 e h).1
  · intro e he d hd
    rcases hmem e he with rfl | rfl | ⟨d2, rfl⟩ | h
    · simp [Event.writeDest] at hd
    · simp [Event.writeDest] at hd
    · simpa [Event.writeDest] using hd.symm
    · rw [(hr4 e h).2.2] at hd
      simp at hd

/-- C3 on a target that was segmented before: chunks of three and two
bytes, segment size eight. -/
theorem C3_small_session_witness :
    sampleReopened.target.segmented = true ∧
    (writeSession (sampleCfg 8) ⟨true⟩ sampleReopened
      [⟨envOk, [1, 2, 3]⟩, ⟨envOk, [4, 5]⟩]).fh.target.segmented = false ∧
    (writeSession (sampleCfg 8) ⟨true⟩ sampleReopened
      [⟨envOk, [1, 2, 3]⟩, ⟨envOk, [4, 5]⟩]).fh.target.soBytes = 5 ∧
    (writeSession (sampleCfg 8) ⟨true⟩ sampleReopened
      [⟨envOk, [1, 2, 3]⟩, ⟨envOk, [4, 5]⟩]).events.filter Event.isNewWriter =
      [Event.newWriter "c" "obj" true] :=
  have h := C3_small_session (sampleCfg 8) ⟨true⟩ sampleReopened ⟨envOk, [1, 2, 3]⟩
    [⟨envOk, [4, 5]⟩] (by decide) (by decide) (by decide) (by decide)
  ⟨rfl, h.1, h.2.1, h.2.2.2.1⟩

/-! ## Promotion to a segmented object -/

/-- The state and effects of the promotion branch taken from the primary
phase: what lines 116-138 leave behind when the move and the new segment
succeed. -/
theorem writeBody_promote (cfg : Config) (env : WriteEnv) (t : Object) (fh : ObjectHandle)
    (written data : List Byte) (hp : Primary t fh written)
    (hover : u64 cfg.SegmentSize < written.length + data.length)
    (hrange : written.length + data.length < 2 ^ 63)
    (hmove : env.objectMoveOk = true) (hinit : env.initSegmentOk = true) :
    (writeBody cfg env fh data).result = Result.ok data.length ∧
    (writeBody cfg env fh data).events =
      [Event.wdClose t.cName t.soName,
        Event.objectMove t.cName t.path t.csName
          (cfg.segmentName (t.path ++ "/" ++ toString env.now) 0) true,
        Event.createManifest t.cName (t.csName ++ "/" ++ (t.path ++ "/" ++ toString env.now))
          t.path env.createManifestOk,
        Event.wdClose t.cName t.soName,
        Event.initSegment t.csName (cfg.segmentName (t.path ++ "/" ++ toString env.now) 1)
          data true] ∧
    (writeBody cfg env fh data).fh.target =
      { t with segmented := true, soBytes := written.length + data.length } ∧
    (writeBody cfg env fh data).fh.wroteSegment = true ∧
    (writeBody cfg env fh data).fh.segmentPrefix = t.path ++ "/" ++ toString env.now ∧
    (writeBody cfg env fh data).fh.wd =
      some ⟨t.csName, cfg.segmentName (t.path ++ "/" ++ toString env.now) 1, data, false⟩ ∧
    (writeBody cfg env fh data).fh.uploaded = data.length ∧
    (writeBody cfg env fh data).fh.segmentID = 2 := by
  obtain ⟨h1, h2, h3, h4, h5, h6⟩ := hp
  have hlt : written.length + data.length < 2 ^ 64 := by omega
  have hn : data.length < 2 ^ 64 := by omega
  have hc : ¬ u64 (fh.uploaded + data.length) ≤ u64 cfg.SegmentSize := by
    rw [h5, u64_of_lt hlt]; omega
  have hc2 : u64 (fh.uploaded + data.length) > u64 cfg.SegmentSize := not_le.mp hc
  have hb : i64 ((written.length : Int) + data.length) = (written.length : Int) + data.length := by
    apply i64_of_range
    · have : (0 : Int) ≤ (written.length : Int) + data.length := by positivity
      linarith
    · exact_mod_cast hrange
  unfold writeBody
  rw [if_neg hc, if_pos hc2]
  unfold promote
  simp only [h2, h4, hmove, Bool.not_false, if_true]
  unfold newSegment
  simp only [initSegment, hinit, if_true, segmentPath, h3, h6, Writer.close, uint, hb,
    u64_of_lt hn]
  simp

theorem chunk5MiB_length : chunk5MiB.length = 5242880 := by
  unfold chunk5MiB
  exact List.length_replicate _ _

/-- On a fresh handle a chunk that fits is written when the remote
operations of the call succeed. -/
theorem Write_fresh_ok (cfg : Config) (env : WriteEnv) (fh : ObjectHandle) (data : List Byte)
    (hf : Fresh fh) (hdel : env.deleteSegmentsOk = true) (hnew : env.newWriterOk = true)
    (hwr : env.wdWriteOk = true) (hfit : data.length ≤ u64 cfg.SegmentSize) :
    (Write cfg env fh data).result = Result.ok data.length := by
  obtain ⟨h1, h2, h3, h4, h5, h6⟩ := hf
  have hc : u64 data.length ≤ u64 cfg.SegmentSize := by
    simpa using (fits_of_le (u := 0) (by simpa using hfit)).1
  rw [Write_eq]
  unfold firstWrite openPrimary newWriter writeBody
  by_cases hs : fh.target.segmented = true <;> simp [h1, h2, h6, hs, hdel, hnew, hwr, hc]

theorem runWrites_single (cfg : Config) (fh : ObjectHandle) (c : WriteCall) :
    (runWrites cfg fh [c]).fh = (Write cfg c.env fh c.data).fh := rfl

/-- From the primary phase a chunk that does not fit is written to a new
segment when the move and the segment writer succeed. -/
theorem Write_promote_ok (cfg : Config) (env : WriteEnv) (t : Object) (fh : ObjectHandle)
    (written data : List Byte) (hp : Primary t fh written)
    (hover : u64 cfg.SegmentSize < written.length + data.length)
    (hrange : written.length + data.length < 2 ^ 63)
    (hmove : env.objectMoveOk = true) (hinit : env.initSegmentOk = true) :
    (Write cfg env fh data).result = Result.ok data.length := by
  rw [Write_eq, firstWrite_skip cfg env fh (Or.inr hp.1)]
  exact (writeBody_promote cfg env t fh written data hp hover hrange hmove hinit).1

/-- The overflow branch on a handle that has produced no segment yet, with
the move and the new segment succeeding: what lines 116-138 compute. -/
theorem writeBody_overflow (cfg : Config) (env : WriteEnv) (fh : ObjectHandle)
    (data : List Byte) (w : Writer) (hws : fh.wroteSegment = false) (hw : fh.wd = some w)
    (hover : u64 cfg.SegmentSize < fh.uploaded + data.length)
    (hnowrap : fh.uploaded + data.length < 2 ^ 64)
    (hmove : env.objectMoveOk = true) (hinit : env.initSegmentOk = true) :
    (writeBody cfg env fh data).result = Result.ok data.length ∧
    (writeBody cfg env fh data).events =
      [Event.wdClose w.container w.path,
        Event.objectMove fh.target.cName fh.target.path fh.target.csName
          (cfg.segmentName (fh.target.path ++ "/" ++ toString env.now) fh.segmentID) true,
        Event.createManifest fh.target.cName
          (fh.target.csName ++ "/" ++ (fh.target.path ++ "/" ++ toString env.now))
          fh.target.path env.createManifestOk,
        Event.wdClose w.container w.path,
        Event.initSegment fh.target.csName
          (cfg.segmentName (fh.target.path ++ "/" ++ toString env.now) (uint (fh.segmentID + 1)))
          data true] ∧
    (writeBody cfg env fh data).fh.target =
      { fh.target with segmented := true, soBytes := i64 (fh.target.soBytes + data.length) } ∧
    (writeBody cfg env fh data).fh.wroteSegment = true ∧
    (writeBody cfg env fh data).fh.segmentPrefix = fh.target.path ++ "/" ++ toString env.now ∧
    (writeBody cfg env fh data).fh.wd =
      some ⟨fh.target.csName,
        cfg.segmentName (fh.target.path ++ "/" ++ toString env.now) (uint (fh.segmentID + 1)),
        data, false⟩ ∧
    (writeBody cfg env fh data).fh.uploaded = data.length := by
  have hn : data.length < 2 ^ 64 := by omega
  have hc : ¬ u64 (fh.uploaded + data.length) ≤ u64 cfg.SegmentSize := by
    rw [u64_of_lt hnowrap]; omega
  have hc2 : u64 (fh.uploaded + data.length) > u64 cfg.SegmentSize := not_le.mp hc
  unfold writeBody
  rw [if_neg hc, if_pos hc2]
  unfold promote
  simp only [hws, hw, hmove, Bool.not_false, if_true]
  unfold newSegment
  simp only [initSegment, hinit, if_true, segmentPath, Writer.close, u64_of_lt hn]
  simp

/-- A normal return from the overflow branch on a handle that has produced
no segment yet means that a writer was there and that the move and the new
segment succeeded. -/
theorem writeBody_overflow_flags (cfg : Config) (env : WriteEnv) (fh : ObjectHandle)
    (data : List Byte) (hws : fh.wroteSegment = false)
    (hover : u64 cfg.SegmentSize < fh.uploaded + data.length)
    (hnowrap : fh.uploaded + data.length < 2 ^ 64)
    (hok : (writeBody cfg env fh data).result.isOk = true) :
    (∃ w, fh.wd = some w) ∧ env.objectMoveOk = true ∧ env.initSegmentOk = true := by
  have hc : ¬ u64 (fh.uploaded + data.length) ≤ u64 cfg.SegmentSize := by
    rw [u64_of_lt hnowrap]; omega
  have hc2 : u64 (fh.uploaded + data.length) > u64 cfg.SegmentSize := not_le.mp hc
  unfold writeBody at hok
  rw [if_neg hc, if_pos hc2] at hok
  unfold promote at hok
  cases hw : fh.wd with
  | none => simp [hws, hw, Result.isOk] at hok
  | some w =>
    simp only [hws, hw, Bool.not_false, if_true] at hok
    by_cases hm : env.objectMoveOk = true
    · refine ⟨⟨w, rfl⟩, hm, ?_⟩
      by_contra hi
      simp [hm, newSegment, initSegment, hi, Result.isOk] at hok
    · simp [hm, Result.isOk] at hok

/-- What the reset block leaves of a handle it runs on, when it returns no
error: the cursor and the names of the target as before, so.Bytes zero, and
the empty writer on the object's own name. -/
theorem firstWrite_reset (cfg : Config) (env : WriteEnv) (fh : ObjectHandle)
    (hc : fh.create = false) (ht : fh.truncate = false)
    (hok : (firstWrite cfg env fh).2.2 = none) :
    (firstWrite cfg env fh).1.wd = some ⟨fh.target.cName, fh.target.soName, [], false⟩ ∧
    (firstWrite cfg env fh).1.target =
      { fh.target with segmented := false, soBytes := 0 } ∧
    (firstWrite cfg env fh).2.1 =
      (if fh.target.segmented then
        [Event.deleteSegments fh.target.csName (hGet fh.target.sh cfg.ManifestHeader) true]
      else []) ++ [Event.newWriter fh.target.cName fh.target.soName true] := by
  unfold firstWrite openPrimary newWriter at hok ⊢
  by_cases hs : fh.target.segmented = true <;> by_cases hd : env.deleteSegmentsOk = true <;>
    by_cases hn : env.newWriterOk = true <;> simp_all

/-- C4, as the code has it.  The handle has produced no segment yet and u
bytes are on the primary object: either the handle is past its reset or was
created by the session (create or truncate set), with uploaded = u and
so.Bytes = u, or it is freshly opened (create and truncate false) with
u = 0, and this Write first runs the reset.  A chunk of length n with
u + n > SegmentSize (u + n an int64) is written, Write returns normally and
the manifest creation succeeds.  Then, after the effects of the reset if it
ran, the call closed the primary writer, moved the primary object to the
segment named by the handle's segmentID under
segmentPrefix = path/unix-time in the segment container, created at the
primary path a manifest whose value is the segment container name, a slash
and segmentPrefix, and wrote the whole chunk to a new writer on the segment
with the next id.  The target is segmented, wroteSegment is set, uploaded is
n and so.Bytes is u + n. -/
theorem C4_promotion (cfg : Config) (env : WriteEnv) (fh : ObjectHandle) (data : List Byte)
    (u : Nat) (hws : fh.wroteSegment = false) (hu : fh.uploaded = u)
    (hstate : ((fh.create = true ∨ fh.truncate = true) ∧ fh.target.soBytes = u) ∨
      (fh.create = false ∧ fh.truncate = false ∧ u = 0))
    (hover : u64 cfg.SegmentSize < u + data.length)
    (hrange : u + data.length < 2 ^ 63)
    (hok : (Write cfg env fh data).result.isOk = true)
    (hman : env.createManifestOk = true) :
    ∃ w : Writer,
      (firstWrite cfg env fh).1.wd = some w ∧
      ((fh.create = true ∨ fh.truncate = true) →
        fh.wd = some w ∧ (firstWrite cfg env fh).2.1 = []) ∧
      ((fh.create = false ∧ fh.truncate = false) →
        w = ⟨fh.target.cName, fh.target.soName, [], false⟩ ∧
        (firstWrite cfg env fh).2.1 =
          (if fh.target.segmented then
            [Event.deleteSegments fh.target.csName (hGet fh.target.sh cfg.ManifestHeader) true]
          else []) ++ [Event.newWriter fh.target.cName fh.target.soName true]) ∧
      (Write cfg env fh data).result = Result.ok data.length ∧
      (Write cfg env fh data).events = (firstWrite cfg env fh).2.1 ++
        [Event.wdClose w.container w.path,
          Event.objectMove fh.target.cName fh.target.path fh.target.csName
            (cfg.segmentName (fh.target.path ++ "/" ++ toString env.now) fh.segmentID) true,
          Event.createManifest fh.target.cName
            (fh.target.csName ++ "/" ++ (fh.target.path ++ "/" ++ toString env.now))
            fh.target.path true,
          Event.wdClose w.container w.path,
          Event.initSegment fh.target.csName
            (cfg.segmentName (fh.target.path ++ "/" ++ toString env.now)
              (uint (fh.segmentID + 1))) data true] ∧
      (Write cfg env fh data).fh.target.segmented = true ∧
      (Write cfg env fh data).fh.wroteSegment = true ∧
      (Write cfg env fh data).fh.segmentPrefix = fh.target.path ++ "/" ++ toString env.now ∧
      (Write cfg env fh data).fh.wd =
        some ⟨fh.target.csName,
          cfg.segmentName (fh.target.path ++ "/" ++ toString env.now) (uint (fh.segmentID + 1)),
          data, false⟩ ∧
      (Write cfg env fh data).fh.uploaded = data.length ∧
      (Write cfg env fh data).fh.target.soBytes = u + data.length := by
  have hnowrap : u + data.length < 2 ^ 64 := by omega
  have hb : i64 ((u : Int) + data.length) = (u : Int) + data.length := by
    apply i64_of_range
    · have : (0 : Int) ≤ (u : Int) + data.length := by positivity
      linarith
    · exact_mod_cast hrange
  rcases hstate with ⟨hphase, hsz⟩ | ⟨hc, ht, hu0⟩
  · have hs := firstWrite_skip cfg env fh hphase
    have hW := Write_past_reset cfg env fh data hphase
    rw [hW] at hok ⊢
    obtain ⟨⟨w, hw⟩, hm, hi⟩ := writeBody_overflow_flags cfg env fh data hws
      (by rw [hu]; exact hover) (by rw [hu]; exact hnowrap) hok
    obtain ⟨g1, g2, g3, g4, g5, g6, g7⟩ := writeBody_overflow cfg env fh data w hws hw
      (by rw [hu]; exact hover) (by rw [hu]; exact hnowrap) hm hi
    refine ⟨w, by rw [hs]; exact hw, fun _ => ⟨hw, by rw [hs]⟩, ?_, g1, ?_, ?_, g4, g5, g6, g7, ?_⟩
    · rintro ⟨hc, ht⟩
      rcases hphase with h | h
      · rw [hc] at h; cases h
      · rw [ht] at h; cases h
    · rw [g2, hs, hman]
      rfl
    · rw [g3]
    · rw [g3]
      simp only []
      rw [hsz, hb]
  · have hr : (firstWrite cfg env fh).2.2 = none := by
      rw [Write_eq] at hok
      cases hr : (firstWrite cfg env fh).2.2 with
      | some e => simp [hr, Result.isOk] at hok
      | none => rfl
    obtain ⟨r1, r2, r3⟩ := firstWrite_reset cfg env fh hc ht hr
    obtain ⟨c1, c2, c3, -, -, -⟩ := firstWrite_cursor cfg env fh
    have hWr : (Write cfg env fh data).result =
        (writeBody cfg env (firstWrite cfg env fh).1 data).result := by
      rw [Write_eq]; simp only [hr]
    have hWe : (Write cfg env fh data).events = (firstWrite cfg env fh).2.1 ++
        (writeBody cfg env (firstWrite cfg env fh).1 data).events := by
      rw [Write_eq]; simp only [hr]
    have hWf : (Write cfg env fh data).fh =
        (writeBody cfg env (firstWrite cfg env fh).1 data).fh := by
      rw [Write_eq]; simp only [hr]
    obtain ⟨g1, g2, g3, g4, g5, g6, g7⟩ := writeBody_overflow cfg env (firstWrite cfg env fh).1 data
      ⟨fh.target.cName, fh.target.soName, [], false⟩ (by rw [c2]; exact hws) r1
      (by rw [c1, hu]; exact hover) (by rw [c1, hu]; exact hnowrap)
      (writeBody_overflow_flags cfg env (firstWrite cfg env fh).1 data (by rw [c2]; exact hws)
        (by rw [c1, hu]; exact hover) (by rw [c1, hu]; exact hnowrap)
        (by rw [← hWr]; exact hok)).2.1
      (writeBody_overflow_flags cfg env (firstWrite cfg env fh).1 data (by rw [c2]; exact hws)
        (by rw [c1, hu]; exact hover) (by rw [c1, hu]; exact hnowrap)
        (by rw [← hWr]; exact hok)).2.2
    rw [r2, c3] at g2 g6
    rw [r2] at g3 g5
    refine ⟨_, r1, ?_, fun _ => ⟨rfl, r3⟩, by rw [hWr]; exact g1, ?_, ?_, by rw [hWf]; exact g4,
      by rw [hWf]; exact g5, by rw [hWf]; exact g6, by rw [hWf]; exact g7, ?_⟩
    · intro h
      rcases h with h | h
      · rw [hc] at h; cases h
      · rw [ht] at h; cases h
    · rw [hWe, g2, hman]
    · rw [hWf, g3]
    · rw [hWf, g3]
      simp only []
      have := hb
      rw [hu0] at this ⊢
      simpa using this

/-- C4 on the chunks [5 MiB, 5 MiB] with a segment size of 8 MiB: after the
first Write the primary writer holds 5 MiB; the second Write moves the
primary object to segment 0, writes its chunk of 5 MiB to segment 1, and
leaves a recorded size of 10 MiB. -/
theorem C4_promotion_witness :
    (runWrites (sampleCfg 8388608) sampleHandle [⟨envOk, chunk5MiB⟩]).fh.wd =
      some ⟨"c", "obj", chunk5MiB, false⟩ ∧
    chunk5MiB.length = 5242880 ∧
    (Write (sampleCfg 8388608) envOk
      (runWrites (sampleCfg 8388608) sampleHandle [⟨envOk, chunk5MiB⟩]).fh chunk5MiB).events =
      [Event.wdClose "c" "obj",
        Event.objectMove "c" "obj" "c_segments" "obj/1700000000/0" true,
        Event.createManifest "c" "c_segments/obj/1700000000" "obj" true,
        Event.wdClose "c" "obj",
        Event.initSegment "c_segments" "obj/1700000000/1" chunk5MiB true] ∧
    (Write (sampleCfg 8388608) envOk
      (runWrites (sampleCfg 8388608) sampleHandle [⟨envOk, chunk5MiB⟩]).fh chunk5MiB).fh.target.segmented
      = true ∧
    (Write (sampleCfg 8388608) envOk
      (runWrites (sampleCfg 8388608) sampleHandle [⟨envOk, chunk5MiB⟩]).fh chunk5MiB).fh.target.soBytes
      = 10485760 := by
  have hseg : u64 (sampleCfg 8388608).SegmentSize = 8388608 := by decide
  have hw1 : (Write (sampleCfg 8388608) envOk sampleHandle chunk5MiB).result.isOk = true := by
    rw [Write_fresh_ok (sampleCfg 8388608) envOk sampleHandle chunk5MiB (by decide) rfl rfl rfl
      (by rw [chunk5MiB_length, hseg]; norm_num)]
    rfl
  have hp : Primary sampleHandle.target
      (runWrites (sampleCfg 8388608) sampleHandle [⟨envOk, chunk5MiB⟩]).fh chunk5MiB := by
    rw [runWrites_single]
    exact (Write_fresh (sampleCfg 8388608) envOk sampleHandle chunk5MiB (by decide) hw1
      (by rw [chunk5MiB_length, hseg]; norm_num) (by rw [chunk5MiB_length]; norm_num)).1
  have hokc : (Write (sampleCfg 8388608) envOk
      (runWrites (sampleCfg 8388608) sampleHandle [⟨envOk, chunk5MiB⟩]).fh chunk5MiB).result.isOk
      = true := by
    rw [Write_promote_ok (sampleCfg 8388608) envOk sampleHandle.target _ chunk5MiB chunk5MiB hp
      (by rw [chunk5MiB_length, hseg]; norm_num) (by rw [chunk5MiB_length]; norm_num) rfl rfl]
    rfl
  obtain ⟨p1, p2, p3, p4, p5, p6⟩ := hp
  have hsz : (runWrites (sampleCfg 8388608) sampleHandle [⟨envOk, chunk5MiB⟩]).fh.target.soBytes =
      ((5242880 : Nat) : Int) := by
    rw [p6, ← chunk5MiB_length]
  obtain ⟨w, -, hpast, -, -, hev, hsg, -, -, -, -, hby⟩ :=
    C4_promotion (sampleCfg 8388608) envOk
      (runWrites (sampleCfg 8388608) sampleHandle [⟨envOk, chunk5MiB⟩]).fh chunk5MiB 5242880
      p2 (by rw [p5, chunk5MiB_length]) (Or.inl ⟨Or.inr p1, hsz⟩)
      (by rw [hseg, chunk5MiB_length]; norm_num) (by rw [chunk5MiB_length]; norm_num) hokc rfl
  obtain ⟨hw, hnil⟩ := hpast (Or.inr p1)
  have hwe : w = ⟨"c", "obj", chunk5MiB, false⟩ := by
    rw [p4] at hw
    exact (Option.some.inj hw).symm
  have e1 : sampleHandle.target.path ++ "/" ++ toString envOk.now = "obj/1700000000" := by decide
  have e2 : sampleHandle.target.csName ++ "/" ++ "obj/1700000000" = "c_segments/obj/1700000000" := by
    decide
  have e3 : (sampleCfg 8388608).segmentName "obj/1700000000" 0 = "obj/1700000000/0" := by decide
  have e4 : (sampleCfg 8388608).segmentName "obj/1700000000" (uint (0 + 1)) = "obj/1700000000/1" := by
    decide
  refine ⟨p4, chunk5MiB_length, ?_, hsg, ?_⟩
  · rw [hev, hnil, hwe, p3, p6]
    simp only [List.nil_append, e1, e2, e3, e4]
    rfl
  · rw [hby, chunk5MiB_length]
    norm_num

/-- C4 as stated fails in two places.  On the manifest value: in the
session of two chunks of five bytes with a segment size of eight, every
Write returns normally and the manifest created at the primary path carries
the segment container name in front of the prefix, which is not the
handle's segmentPrefix.  On the segment ids: when an earlier Write of the
session failed in its move, five bytes are still on the primary object and
wroteSegment is false, and the next chunk of four, written successfully,
moves the primary object to segment 1 and goes to segment 2. -/
theorem C4_promotion_counterexample :
    ((∀ r ∈ (runWrites (sampleCfg 8) sampleHandle
        [⟨envOk, [1, 2, 3, 4, 5]⟩, ⟨envOk, [6, 7, 8, 9, 10]⟩]).results, r.isOk = true) ∧
      Event.createManifest "c" "c_segments/obj/1700000000" "obj" true ∈
        (runWrites (sampleCfg 8) sampleHandle
          [⟨envOk, [1, 2, 3, 4, 5]⟩, ⟨envOk, [6, 7, 8, 9, 10]⟩]).events ∧
      (runWrites (sampleCfg 8) sampleHandle
          [⟨envOk, [1, 2, 3, 4, 5]⟩, ⟨envOk, [6, 7, 8, 9, 10]⟩]).fh.segmentPrefix =
        "obj/1700000000" ∧
      ¬ (∀ e ∈ (runWrites (sampleCfg 8) sampleHandle
          [⟨envOk, [1, 2, 3, 4, 5]⟩, ⟨envOk, [6, 7, 8, 9, 10]⟩]).events,
        ∀ container value path ok, e = Event.createManifest container value path ok →
          value = (runWrites (sampleCfg 8) sampleHandle
            [⟨envOk, [1, 2, 3, 4, 5]⟩, ⟨envOk, [6, 7, 8, 9, 10]⟩]).fh.segmentPrefix)) ∧
    ((runWrites (sampleCfg 8) sampleHandle
        [⟨envOk, [1, 2, 3, 4, 5]⟩, ⟨envMoveFails, [6, 7, 8, 9]⟩]).results =
        [Result.ok 5, Result.err Err.objectMove] ∧
      (runWrites (sampleCfg 8) sampleHandle
        [⟨envOk, [1, 2, 3, 4, 5]⟩, ⟨envMoveFails, [6, 7, 8, 9]⟩]).fh.wroteSegment = false ∧
      (runWrites (sampleCfg 8) sampleHandle
        [⟨envOk, [1, 2, 3, 4, 5]⟩, ⟨envMoveFails, [6, 7, 8, 9]⟩]).fh.uploaded = 5 ∧
      (runWrites (sampleCfg 8) sampleHandle
        [⟨envOk, [1, 2, 3, 4, 5]⟩, ⟨envMoveFails, [6, 7, 8, 9]⟩]).fh.target.soBytes = 5 ∧
      (Write (sampleCfg 8) envOk (runWrites (sampleCfg 8) sampleHandle
        [⟨envOk, [1, 2, 3, 4, 5]⟩, ⟨envMoveFails, [6, 7, 8, 9]⟩]).fh [6, 7, 8, 9]).result =
        Result.ok 4 ∧
      (Write (sampleCfg 8) envOk (runWrites (sampleCfg 8) sampleHandle
        [⟨envOk, [1, 2, 3, 4, 5]⟩, ⟨envMoveFails, [6, 7, 8, 9]⟩]).fh [6, 7, 8, 9]).events =
        [Event.wdClose "c" "obj",
          Event.objectMove "c" "obj" "c_segments" "obj/1700000000/1" true,
          Event.createManifest "c" "c_segments/obj/1700000000" "obj" true,
          Event.wdClose "c" "obj",
          Event.initSegment "c_segments" "obj/1700000000/2" [6, 7, 8, 9] true]) := by
  refine ⟨⟨by decide, by decide, by decide, ?_⟩, by decide⟩
  intro h
  have h1 := h (Event.createManifest "c" "c_segments/obj/1700000000" "obj" true) (by decide)
    "c" "c_segments/obj/1700000000" "obj" true rfl
  revert h1
  decide

/-! ## The first-write reset -/

theorem initSegment_keeps (cfg : Config) (env : WriteEnv) (fh : ObjectHandle) (data : List Byte) :
    (initSegment cfg env fh data).1.truncate = fh.truncate ∧
    (∀ e ∈ (initSegment cfg env fh data).2.1,
      e.isDeleteSegments = false ∧ e.isNewWriter = false) ∧
    ((initSegment cfg env fh data).2.2 = none → (initSegment cfg env fh data).1.wd.isSome = true) := by
  unfold initSegment
  by_cases h : env.initSegmentOk = true <;> simp [h, Event.isDeleteSegments, Event.isNewWriter]

theorem newSegment_keeps (cfg : Config) (env : WriteEnv) (fh : ObjectHandle) (evs : List Event)
    (data : List Byte)
    (hevs : ∀ e ∈ evs, e.isDeleteSegments = false ∧ e.isNewWriter = false) :
    (newSegment cfg env fh evs data).fh.truncate = fh.truncate ∧
    (∀ e ∈ (newSegment cfg env fh evs data).events,
      e.isDeleteSegments = false ∧ e.isNewWriter = false) ∧
    ((newSegment cfg env fh evs data).result.isOk = true →
      (newSegment cfg env fh evs data).fh.wd.isSome = true) := by
  unfold newSegment
  cases hw : fh.wd with
  | none => exact ⟨rfl, hevs, by simp [Result.isOk]⟩
  | some w =>
    have hk := initSegment_keeps cfg env { fh with wd := some w.close } data
    rcases hi : initSegment cfg env { fh with wd := some w.close } data with ⟨fh2, evs2, r⟩
    rw [hi] at hk
    have hmem : ∀ e ∈ evs ++ [Event.wdClose w.container w.path] ++ evs2,
        e.isDeleteSegments = false ∧ e.isNewWriter = false := by
      intro e he
      simp only [List.mem_append, List.mem_singleton] at he
      rcases he with (he | rfl) | he
      · exact hevs e he
      · exact ⟨rfl, rfl⟩
      · exact hk.2.1 e he
    cases r with
    | none =>
      simp only [hi]
      exact ⟨hk.1, hmem, fun _ => hk.2.2 rfl⟩
    | some e =>
      simp only [hi]
      exact ⟨hk.1, hmem, by simp [Result.isOk]⟩

theorem promote_keeps (cfg : Config) (env : WriteEnv) (fh : ObjectHandle) (data : List Byte) :
    (promote cfg env fh data).fh.truncate = fh.truncate ∧
    (∀ e ∈ (promote cfg env fh data).events,
      e.isDeleteSegments = false ∧ e.isNewWriter = false) ∧
    ((promote cfg env fh data).result.isOk = true →
      (promote cfg env fh data).fh.wd.isSome = true) := by
  unfold promote
  by_cases h1 : fh.wroteSegment = true
  · simp only [h1, Bool.not_true, Bool.false_eq_true, if_false]
    exact newSegment_keeps cfg env fh [] data (by simp)
  · cases hw : fh.wd with
    | none => simp [h1, Result.isOk]
    | some w =>
      by_cases h2 : env.objectMoveOk = true
      · simp only [h1, h2, Bool.not_false, if_true]
        exact newSegment_keeps cfg env _ _ data
          (by simp [Event.isDeleteSegments, Event.isNewWriter])
      · simp [h1, h2, Result.isOk, Event.isDeleteSegments, Event.isNewWriter]

theorem writeBody_keeps (cfg : Config) (env : WriteEnv) (fh : ObjectHandle) (data : List Byte) :
    (writeBody cfg env fh data).fh.truncate = fh.truncate ∧
    (∀ e ∈ (writeBody cfg env fh data).events,
      e.isDeleteSegments = false ∧ e.isNewWriter = false) ∧
    ((writeBody cfg env fh data).result.isOk = true →
      (writeBody cfg env fh data).fh.wd.isSome = true) := by
  unfold writeBody
  by_cases h1 : u64 (fh.uploaded + data.length) ≤ u64 cfg.SegmentSize
  · cases hw : fh.wd with
    | none => simp [h1, Result.isOk]
    | some w =>
      by_cases h3 : env.wdWriteOk = true <;>
        simp [h1, h3, Result.isOk, Event.isDeleteSegments, Event.isNewWriter]
  · have h2 : u64 (fh.uploaded + data.length) > u64 cfg.SegmentSize := not_le.mp h1
    simp only [h1, h2, if_false, if_true]
    exact promote_keeps cfg env fh data

theorem runWrites_truncate (cfg : Config) (calls : List WriteCall) :
    ∀ fh : ObjectHandle, fh.truncate = true →
      (runWrites cfg fh calls).fh.truncate = true ∧
      ∀ e ∈ (runWrites cfg fh calls).events,
        e.isDeleteSegments = false ∧ e.isNewWriter = false := by
  induction calls with
  | nil => intro fh h; simpa [runWrites] using h
  | cons c cs ih =>
    intro fh h
    have hW := Write_past_reset cfg c.env fh c.data (Or.inr h)
    have hk := writeBody_keeps cfg c.env fh c.data
    have ih2 := ih (Write cfg c.env fh c.data).fh (by rw [hW, hk.1]; exact h)
    refine ⟨ih2.1, ?_⟩
    intro e he
    simp only [runWrites, List.mem_append] at he
    rcases he with he | he
    · rw [hW] at he
      exact hk.2.1 e he
    · exact ih2.2 e he

/-- C5: on a handle opened for write (create and truncate both false) whose
target is segmented, the first Write, when the deletion succeeds, sets
truncate for good: whatever Write calls follow, each is the body of Write
alone, and none issues a deletion or opens a primary writer again.  When the
opening of the writer succeeds as well, the call first deletes the segments
named by the target's manifest header in the segment container, clears the
segmented flag, sets so.Bytes to 0 and opens an empty writer on the object's
own name; only then does the body of Write run, on that state, so no byte of
the chunk reaches a writer before. -/
theorem C5_first_write_reset (cfg : Config) (env : WriteEnv) (fh : ObjectHandle)
    (data : List Byte) (hc : fh.create = false) (ht : fh.truncate = false)
    (hs : fh.target.segmented = true) (hdel : env.deleteSegmentsOk = true) :
    (env.newWriterOk = true →
      ((firstWrite cfg env fh).2.1 =
          [Event.deleteSegments fh.target.csName (hGet fh.target.sh cfg.ManifestHeader) true,
            Event.newWriter fh.target.cName fh.target.soName true] ∧
        (firstWrite cfg env fh).2.2 = none ∧
        (firstWrite cfg env fh).1.target.segmented = false ∧
        (firstWrite cfg env fh).1.target.soBytes = 0 ∧
        (firstWrite cfg env fh).1.wd = some ⟨fh.target.cName, fh.target.soName, [], false⟩ ∧
        (firstWrite cfg env fh).1.truncate = true) ∧
      (Write cfg env fh data).events =
        (firstWrite cfg env fh).2.1 ++ (writeBody cfg env (firstWrite cfg env fh).1 data).events ∧
      (Write cfg env fh data).fh = (writeBody cfg env (firstWrite cfg env fh).1 data).fh ∧
      (Write cfg env fh data).result = (writeBody cfg env (firstWrite cfg env fh).1 data).result) ∧
    (∀ calls : List WriteCall,
      (runWrites cfg (Write cfg env fh data).fh calls).fh.truncate = true ∧
      (∀ e ∈ (runWrites cfg (Write cfg env fh data).fh calls).events,
        e.isDeleteSegments = false ∧ e.isNewWriter = false) ∧
      ∀ (env2 : WriteEnv) (d : List Byte),
        Write cfg env2 (runWrites cfg (Write cfg env fh data).fh calls).fh d =
          writeBody cfg env2 (runWrites cfg (Write cfg env fh data).fh calls).fh d) := by
  have htr0 : (firstWrite cfg env fh).1.truncate = true := by
    unfold firstWrite openPrimary
    by_cases hnew : env.newWriterOk = true <;> simp [hc, ht, hs, hdel, hnew]
  have htr : (Write cfg env fh data).fh.truncate = true := by
    rw [Write_eq]
    cases hr : (firstWrite cfg env fh).2.2 with
    | some e => simpa using htr0
    | none =>
      simp only []
      rw [(writeBody_keeps cfg env _ data).1]
      exact htr0
  refine ⟨?_, ?_⟩
  · intro hnew
    have hfw : (firstWrite cfg env fh).2.1 =
          [Event.deleteSegments fh.target.csName (hGet fh.target.sh cfg.ManifestHeader) true,
            Event.newWriter fh.target.cName fh.target.soName true] ∧
        (firstWrite cfg env fh).2.2 = none ∧
        (firstWrite cfg env fh).1.target.segmented = false ∧
        (firstWrite cfg env fh).1.target.soBytes = 0 ∧
        (firstWrite cfg env fh).1.wd = some ⟨fh.target.cName, fh.target.soName, [], false⟩ ∧
        (firstWrite cfg env fh).1.truncate = true := by
      unfold firstWrite openPrimary newWriter
      simp [hc, ht, hs, hdel, hnew]
    refine ⟨hfw, ?_⟩
    rw [Write_eq]
    simp [hfw.2.1]
  · intro calls
    obtain ⟨h1, h2⟩ := runWrites_truncate cfg calls _ htr
    exact ⟨h1, h2, fun env2 d => Write_past_reset cfg env2 _ d (Or.inr h1)⟩

/-- C5 on the reopened segmented sample object. -/
theorem C5_first_write_reset_witness :
    (firstWrite (sampleCfg 8) envOk sampleReopened).2.1 =
      [Event.deleteSegments "c_segments" "c_segments/obj/1600000000" true,
        Event.newWriter "c" "obj" true] ∧
    (firstWrite (sampleCfg 8) envOk sampleReopened).1.target.segmented = false ∧
    (firstWrite (sampleCfg 8) envOk sampleReopened).1.target.soBytes = 0 ∧
    (Write (sampleCfg 8) envOk sampleReopened [1, 2, 3]).events =
      [Event.deleteSegments "c_segments" "c_segments/obj/1600000000" true,
        Event.newWriter "c" "obj" true, Event.wdWrite "c" "obj" [1, 2, 3] true] ∧
    (runWrites (sampleCfg 8) (Write (sampleCfg 8) envOk sampleReopened [1, 2, 3]).fh
      [⟨envOk, [4, 5]⟩]).events = [Event.wdWrite "c" "obj" [4, 5] true] :=
  have h := C5_first_write_reset (sampleCfg 8) envOk sampleReopened [1, 2, 3] rfl rfl rfl rfl
  ⟨(h.1 rfl).1.1, (h.1 rfl).1.2.2.1, (h.1 rfl).1.2.2.2.1, by decide, by decide⟩

/-! ## The lock at Release -/

theorem Write_ok_writer (cfg : Config) (env : WriteEnv) (fh : ObjectHandle) (data : List Byte)
    (h : (Write cfg env fh data).result.isOk = true) : (Write cfg env fh data).fh.wd.isSome = true := by
  rw [Write_eq] at h ⊢
  cases hr : (firstWrite cfg env fh).2.2 with
  | some e => simp [hr, Result.isOk] at h
  | none =>
    simp only [hr] at h ⊢
    exact (writeBody_keeps cfg env _ data).2.2 h

theorem runWrites_ok_writer (cfg : Config) (calls : List WriteCall) :
    ∀ fh : ObjectHandle, fh.wd.isSome = true →
      (∀ r ∈ (runWrites cfg fh calls).results, r.isOk = true) →
      (runWrites cfg fh calls).fh.wd.isSome = true := by
  induction calls with
  | nil => intro fh h _; simpa [runWrites] using h
  | cons c cs ih =>
    intro fh _ hok
    simp only [runWrites, List.mem_cons, forall_eq_or_imp] at hok
    exact ih _ (Write_ok_writer cfg c.env fh c.data hok.1) hok.2

theorem Read_keeps_writer (env : ReadEnv) (fh : ObjectHandle) (offset : Int) (size : Nat) :
    (Read env fh offset size).fh.wd = fh.wd := by
  unfold Read readAt
  cases hr : fh.rd with
  | none => by_cases h : env.newReaderOk = true <;> simp [h]
  | some r => simp

theorem runReads_keeps_writer (reads : List ReadCall) :
    ∀ fh : ObjectHandle, (runReads fh reads).fh.wd = fh.wd := by
  induction reads with
  | nil => intro fh; rfl
  | cons c cs ih =>
    intro fh
    simp only [runReads]
    rw [ih, Read_keeps_writer]

theorem unlocks_closeReader (fh : ObjectHandle) (rest : List Event) :
    unlocks (closeReader fh ++ rest) = unlocks rest := by
  unfold closeReader unlocks
  cases hr : fh.rd with
  | none => simp
  | some r => by_cases hc : r.closer = true <;> simp [hc, Event.isUnlock]

theorem Release_unlocks (cfg : Config) (env : ReleaseEnv) (fh : ObjectHandle) :
    unlocks (Release cfg env fh).events = if fh.wd.isSome = true then 1 else 0 := by
  unfold Release
  cases hw : fh.wd with
  | none =>
    have := unlocks_closeReader fh []
    simpa [unlocks] using this
  | some w =>
    by_cases he : cfg.Encryption = true <;> by_cases hu : env.objectUpdateOk = true <;>
      simp only [he, hu, if_true, if_false, Bool.false_eq_true, List.append_assoc,
        unlocks_closeReader, Option.isSome_some] <;>
      simp [unlocks, Event.isUnlock]

/-- C6, as the code has it: Release unlocks the target's mutex exactly once
when the handle holds a writer at that point and not at all when it holds
none, whether or not the header update succeeds.  A writer is held after
every non-empty sequence of Write calls that all returned normally, so such
a session unlocks exactly once; a session that starts without a writer and
makes only Read calls never unlocks. -/
theorem C6_unlock_with_writer (cfg : Config) (renv : ReleaseEnv) (fh : ObjectHandle)
    (c : WriteCall) (cs : List WriteCall) (fhr : ObjectHandle) (reads : List ReadCall)
    (hok : ∀ r ∈ (runWrites cfg fh (c :: cs)).results, r.isOk = true)
    (hr : fhr.wd = none) :
    unlocks (Release cfg renv (runWrites cfg fh (c :: cs)).fh).events = 1 ∧
    unlocks (Release cfg renv (runReads fhr reads).fh).events = 0 ∧
    (∀ (env2 : ReleaseEnv) (fh2 : ObjectHandle),
      unlocks (Release cfg env2 fh2).events = if fh2.wd.isSome = true then 1 else 0) := by
  refine ⟨?_, ?_, fun env2 fh2 => Release_unlocks cfg env2 fh2⟩
  · rw [Release_unlocks]
    simp only [runWrites, List.mem_cons, forall_eq_or_imp] at hok
    have h1 := Write_ok_writer cfg c.env fh c.data hok.1
    have h2 := runWrites_ok_writer cfg cs _ h1 hok.2
    have h3 : (runWrites cfg fh (c :: cs)).fh = (runWrites cfg (Write cfg c.env fh c.data).fh cs).fh :=
      rfl
    rw [h3, h2]
    simp
  · rw [Release_unlocks, runReads_keeps_writer, hr]
    simp

/-- C6 on a two-chunk write session whose header update fails, and on a
session of one Read. -/
theorem C6_unlock_with_writer_witness :
    (Release (sampleCfg 8) ⟨false⟩ (runWrites (sampleCfg 8) sampleHandle
      [⟨envOk, [1, 2, 3]⟩, ⟨envOk, [4, 5]⟩]).fh).result = Result.err Err.objectUpdate ∧
    unlocks (Release (sampleCfg 8) ⟨false⟩ (runWrites (sampleCfg 8) sampleHandle
      [⟨envOk, [1, 2, 3]⟩, ⟨envOk, [4, 5]⟩]).fh).events = 1 ∧
    unlocks (Release (sampleCfg 8) ⟨false⟩
      (runReads sampleHandle [⟨⟨true, [1, 2, 3], true⟩, 0, 2⟩]).fh).events = 0 :=
  have h := C6_unlock_with_writer (sampleCfg 8) ⟨false⟩ sampleHandle ⟨envOk, [1, 2, 3]⟩
    [⟨envOk, [4, 5]⟩] sampleHandle [⟨⟨true, [1, 2, 3], true⟩, 0, 2⟩] (by decide) rfl
  ⟨by decide, h.1, h.2.1⟩

/-- C6 as stated fails: on a segmented target the first Write fails in the
deletion of the old segments, the handle still has no writer, and the
Release that ends the session does not unlock the mutex. -/
theorem C6_lock_kept_counterexample :
    Fresh sampleReopened ∧
    (Write (sampleCfg 8) envDeleteFails sampleReopened [1, 2, 3]).result =
      Result.err Err.deleteSegments ∧
    (writeSession (sampleCfg 8) ⟨true⟩ sampleReopened [⟨envDeleteFails, [1, 2, 3]⟩]).result =
      Result.ok () ∧
    unlocks (writeSession (sampleCfg 8) ⟨true⟩ sampleReopened
      [⟨envDeleteFails, [1, 2, 3]⟩]).events = 0 := by
  decide

/-! ## Headers at Release -/

theorem hGet_hSet_same (h : Headers) (k v : String) : hGet (hSet h k v) k = v := by
  simp [hGet, hSet, List.lookup]

theorem lookup_filter_ne (h : Headers) (k k2 : String) (hne : k2 ≠ k) :
    List.lookup k2 (h.filter (fun p => !(p.1 == k))) = List.lookup k2 h := by
  induction h with
  | nil => rfl
  | cons p ps ih =>
    obtain ⟨a, b⟩ := p
    by_cases hak : a = k
    · subst hak
      have h1 : (k2 == a) = false := by simpa using hne
      simp [List.filter, List.lookup, h1, ih]
    · have h2 : (a == k) = false := by simpa using hak
      by_cases h3 : k2 = a
      · subst h3
        simp [List.filter, List.lookup, h2]
      · have h4 : (k2 == a) = false := by simpa using h3
        simp [List.filter, List.lookup, h2, h4, ih]

theorem hGet_hSet_other (h : Headers) (k v k2 : String) (hne : k2 ≠ k) :
    hGet (hSet h k v) k2 = hGet h k2 := by
  have h1 : (k2 == k) = false := by simpa using hne
  simp [hGet, hSet, List.lookup, h1, lookup_filter_ne h k k2 hne]

theorem cryptoHeaders_get (cfg : Config) (fh : ObjectHandle) (base : Headers)
    (hne : cfg.ObjectSizeHeader ≠ cfg.ObjectNonceHeader) :
    hGet (cryptoHeaders cfg fh base) cfg.ObjectSizeHeader = toString fh.target.soBytes ∧
    hGet (cryptoHeaders cfg fh base) cfg.ObjectNonceHeader = fh.nonce := by
  unfold cryptoHeaders
  exact ⟨by rw [hGet_hSet_other _ _ _ _ hne, hGet_hSet_same], hGet_hSet_same _ _ _⟩

/-- C7: Release on a handle that holds a writer, the size and nonce header
names being distinct.  With encryption on and a successful update: the
effects are, after the closing of the reader, the closing of the writer, the
update of (container, path) with headers whose size entry is the decimal
rendering of so.Bytes and whose nonce entry is the handle's nonce, the
eviction of (container, path) from the cache and the unlock; the target's
own headers carry the same two entries; no error is returned.  With
encryption on and a failed update: the writer is closed, the update is
attempted, the cache is not evicted and an error is returned.  With
encryption off: the writer is closed, no update is attempted, the cache
entry is evicted, and no error is returned. -/
theorem C7_release_headers (cfg : Config) (env : ReleaseEnv) (fh : ObjectHandle) (w : Writer)
    (hw : fh.wd = some w) (hne : cfg.ObjectSizeHeader ≠ cfg.ObjectNonceHeader) :
    (cfg.Encryption = true → env.objectUpdateOk = true →
      (Release cfg env fh).result = Result.ok () ∧
      (Release cfg env fh).events = closeReader fh ++
        [Event.wdClose w.container w.path,
          Event.objectUpdate fh.target.cName fh.target.path
            (cryptoHeaders cfg fh (cfg.metaHeaders fh.target.sh)) true,
          Event.cacheRemove fh.target.cName fh.target.path, Event.unlock] ∧
      hGet (cryptoHeaders cfg fh (cfg.metaHeaders fh.target.sh)) cfg.ObjectSizeHeader =
        toString fh.target.soBytes ∧
      hGet (cryptoHeaders cfg fh (cfg.metaHeaders fh.target.sh)) cfg.ObjectNonceHeader =
        fh.nonce ∧
      hGet (Release cfg env fh).fh.target.sh cfg.ObjectSizeHeader = toString fh.target.soBytes ∧
      hGet (Release cfg env fh).fh.target.sh cfg.ObjectNonceHeader = fh.nonce) ∧
    (cfg.Encryption = true → env.objectUpdateOk = false →
      (Release cfg env fh).result = Result.err Err.objectUpdate ∧
      (Release cfg env fh).events = closeReader fh ++
        [Event.wdClose w.container w.path,
          Event.objectUpdate fh.target.cName fh.target.path
            (cryptoHeaders cfg fh (cfg.metaHeaders fh.target.sh)) false,
          Event.unlock] ∧
      ∀ e ∈ (Release cfg env fh).events, e.isCacheRemove = false) ∧
    (cfg.Encryption = false →
      (Release cfg env fh).result = Result.ok () ∧
      (Release cfg env fh).events = closeReader fh ++
        [Event.wdClose w.container w.path,
          Event.cacheRemove fh.target.cName fh.target.path, Event.unlock] ∧
      ∀ e ∈ (Release cfg env fh).events, e.isObjectUpdate = false) := by
  have hcl : ∀ e ∈ closeReader fh, e = Event.rdClose := by
    intro e he
    unfold closeReader at he
    cases hr : fh.rd with
    | none => simp [hr] at he
    | some r => by_cases hc : r.closer = true <;> simp [hr, hc] at he; exact he
  refine ⟨?_, ?_, ?_⟩
  · intro he hu
    have hg := cryptoHeaders_get cfg fh (cfg.metaHeaders fh.target.sh) hne
    have hg2 := cryptoHeaders_get cfg fh fh.target.sh hne
    unfold Release
    simp only [hw, he, hu, if_true]
    exact ⟨trivial, by simp, hg.1, hg.2, hg2.1, hg2.2⟩
  · intro he hu
    unfold Release
    simp only [hw, he, hu, if_true, Bool.false_eq_true, if_false]
    refine ⟨trivial, by simp, ?_⟩
    intro e hmem
    simp only [List.mem_append, List.mem_singleton] at hmem
    rcases hmem with ((hmem | rfl) | rfl) | rfl
    · rw [hcl e hmem]; rfl
    · rfl
    · rfl
    · rfl
  · intro he
    unfold Release
    simp only [hw, he, Bool.false_eq_true, if_false]
    refine ⟨trivial, by simp, ?_⟩
    intro e hmem
    simp only [List.mem_append, List.mem_cons, List.mem_singleton, List.not_mem_nil,
      or_false] at hmem
    rcases hmem with (hmem | rfl) | rfl | rfl
    · rw [hcl e hmem]; rfl
    · rfl
    · rfl
    · rfl

/-- C7 on the sample handle that wrote five bytes, encryption on, the
update succeeding. -/
theorem C7_release_headers_witness :
    (Release (sampleCfg 8) ⟨true⟩ sampleWriting).result = Result.ok () ∧
    (Release (sampleCfg 8) ⟨true⟩ sampleWriting).events =
      [Event.wdClose "c" "obj",
        Event.objectUpdate "c" "obj"
          [("X-Object-Meta-Crypto-Nonce", "n1"), ("X-Object-Meta-Crypto-Origin-Size", "5")] true,
        Event.cacheRemove "c" "obj", Event.unlock] ∧
    hGet (Release (sampleCfg 8) ⟨true⟩ sampleWriting).fh.target.sh
      "X-Object-Meta-Crypto-Origin-Size" = "5" :=
  have h := (C7_release_headers (sampleCfg 8) ⟨true⟩ sampleWriting ⟨"c", "obj", [1, 2, 3, 4, 5], false⟩
    rfl (by decide)).1 rfl rfl
  ⟨h.1, by decide, h.2.2.2.2.1⟩

/-! ## Reads -/

theorem readFull_length (r : Reader) (size : Nat) : (r.readFull size).1.length = size := by
  simp only [Reader.readFull, List.length_append, List.length_replicate, List.length_take,
    List.length_drop]
  omega

theorem readFull_get (r : Reader) (size i : Nat) (hi : i < size) :
    (r.readFull size).1[i]? = some (r.content.getD (r.pos + i) 0) := by
  simp only [Reader.readFull]
  by_cases h : r.pos + i < r.content.length
  · have h1 : i < ((r.content.drop r.pos).take size).length := by
      simp only [List.length_take, List.length_drop]; omega
    rw [List.getElem?_append_left h1, List.getElem?_take_of_lt hi, List.getElem?_drop,
      List.getD_eq_getElem?_getD, List.getElem?_eq_getElem h]
    rfl
  · have hlen : ((r.content.drop r.pos).take size).length = min size (r.content.length - r.pos) := by
      simp only [List.length_take, List.length_drop]
    have h1 : ((r.content.drop r.pos).take size).length ≤ i := by
      rw [hlen]; omega
    have h2 : r.content.getD (r.pos + i) 0 = 0 := by
      rw [List.getD_eq_getElem?_getD, List.getElem?_eq_none (by omega)]
      rfl
    have h3 : i - ((r.content.drop r.pos).take size).length <
        size - ((r.content.drop r.pos).take size).length := by
      rw [hlen]; omega
    rw [List.getElem?_append_right h1, h2, List.getElem?_replicate, if_pos h3]

theorem readAt_spec (fh : ObjectHandle) (evs : List Event) (r : Reader) (offset : Int)
    (size : Nat) (hO : 0 ≤ offset) :
    (∃ buf, (readAt fh evs r offset size).result = Result.ok buf ∧ buf.length = size ∧
      ∀ i, i < size → buf[i]? = some (r.content.getD (offset.toNat + i) 0)) ∧
    (readAt fh evs r offset size).events = evs ++ [Event.rdSeek offset, Event.rdReadFull size] ∧
    ∃ r2, (readAt fh evs r offset size).fh.rd = some r2 ∧ r2.content = r.content := by
  have hs : r.seek offset = { r with pos := offset.toNat } := by
    unfold Reader.seek
    rw [if_pos hO]
  refine ⟨⟨((r.seek offset).readFull size).1, rfl, readFull_length _ _, ?_⟩, rfl, ?_⟩
  · intro i hi
    rw [readFull_get _ _ _ hi, hs]
  · exact ⟨((r.seek offset).readFull size).2, rfl, by rw [hs]; rfl⟩

/-- C8: for content c streamed by the reader the call uses (the handle's
reader, or the one the call can construct), an offset O >= 0 and a size S,
Read returns no error and a buffer of exactly S bytes whose byte i is
c[O+i] when O+i < len(c) and 0 otherwise.  A handle without a reader
constructs one, once, in this call; a handle with a reader constructs none;
in both cases the handle afterwards holds a reader over the same content,
which every later Read therefore reuses. -/
theorem C8_read_zero_fill (env : ReadEnv) (fh : ObjectHandle) (offset : Int) (size : Nat)
    (c : List Byte) (hO : 0 ≤ offset) (hc : streamOf env fh = some c) :
    (∃ buf, (Read env fh offset size).result = Result.ok buf ∧ buf.length = size ∧
      ∀ i, i < size → buf[i]? = some (c.getD (offset.toNat + i) 0)) ∧
    (fh.rd = none →
      (Read env fh offset size).events.filter Event.isNewReader = [Event.newReader true]) ∧
    (fh.rd.isSome = true → ∀ e ∈ (Read env fh offset size).events, e.isNewReader = false) ∧
    (Read env fh offset size).fh.rd.isSome = true ∧
    (∀ env2 : ReadEnv, streamOf env2 (Read env fh offset size).fh = some c) := by
  unfold streamOf at hc
  cases hr : fh.rd with
  | none =>
    rw [hr] at hc
    by_cases hn : env.newReaderOk = true
    · simp only [hn, if_true, Option.some.injEq] at hc
      obtain ⟨h1, h2, r2, h3, h4⟩ := readAt_spec { fh with rd := some ⟨env.content, 0, env.closer⟩ }
        [Event.newReader true] ⟨env.content, 0, env.closer⟩ offset size hO
      have hR : Read env fh offset size = readAt { fh with rd := some ⟨env.content, 0, env.closer⟩ }
          [Event.newReader true] ⟨env.content, 0, env.closer⟩ offset size := by
        unfold Read
        simp [hr, hn]
      rw [hR]
      refine ⟨by simpa [hc] using h1, ?_, by simp, by rw [h3]; rfl, ?_⟩
      · intro _
        rw [h2]
        simp [List.filter, Event.isNewReader]
      · intro env2
        unfold streamOf
        rw [h3]
        simpa [hc] using h4
    · simp [hn] at hc
  | some r =>
    rw [hr] at hc
    simp only [Option.some.injEq] at hc
    obtain ⟨h1, h2, r2, h3, h4⟩ := readAt_spec fh [] r offset size hO
    have hR : Read env fh offset size = readAt fh [] r offset size := by
      unfold Read
      simp [hr]
    rw [hR]
    refine ⟨by simpa [hc] using h1, by simp, ?_, by rw [h3]; rfl, ?_⟩
    · intro _ e he
      rw [h2] at he
      simp only [List.nil_append, List.mem_cons, List.mem_singleton, List.not_mem_nil,
        or_false] at he
      rcases he with rfl | rfl <;> rfl
    · intro env2
      unfold streamOf
      rw [h3]
      simpa [hc] using h4

/-- C8 on a read of five bytes at offset 1 of a three-byte object. -/
theorem C8_read_zero_fill_witness :
    (Read ⟨true, [1, 2, 3], true⟩ sampleHandle 1 5).result = Result.ok [2, 3, 0, 0, 0] ∧
    ∃ buf, (Read ⟨true, [1, 2, 3], true⟩ sampleHandle 1 5).result = Result.ok buf ∧
      buf.length = 5 ∧ ∀ i, i < 5 → buf[i]? = some (([1, 2, 3] : List Byte).getD (1 + i) 0) :=
  ⟨by decide, (C8_read_zero_fill ⟨true, [1, 2, 3], true⟩ sampleHandle 1 5 [1, 2, 3] (by decide)
    rfl).1⟩

/-! ## Failures of remote operations inside Write -/

/-- A failed deletion of the old segments ends the call at line 87: nothing
else is issued and the handle is as before. -/
theorem Write_deleteSegments_failure (cfg : Config) (env : WriteEnv) (fh : ObjectHandle)
    (data : List Byte) (hc : fh.create = false) (ht : fh.truncate = false)
    (hs : fh.target.segmented = true) (hdel : env.deleteSegmentsOk = false) :
    (Write cfg env fh data).result = Result.err Err.deleteSegments ∧
    (Write cfg env fh data).events =
      [Event.deleteSegments fh.target.csName (hGet fh.target.sh cfg.ManifestHeader) false] ∧
    (Write cfg env fh data).fh = fh := by
  rw [Write_eq]
  unfold firstWrite
  simp [hc, ht, hs, hdel]

/-- A failed move ends the call at line 123: the primary writer was closed
and the move attempted, and neither the manifest nor a segment writer is
issued; wroteSegment and the segmented flag keep their values. -/
theorem Write_objectMove_failure (cfg : Config) (env : WriteEnv) (fh : ObjectHandle)
    (data : List Byte) (w : Writer) (hphase : fh.create = true ∨ fh.truncate = true)
    (hover : u64 (fh.uploaded + data.length) > u64 cfg.SegmentSize)
    (hws : fh.wroteSegment = false) (hw : fh.wd = some w) (hmove : env.objectMoveOk = false) :
    (Write cfg env fh data).result = Result.err Err.objectMove ∧
    (Write cfg env fh data).events =
      [Event.wdClose w.container w.path,
        Event.objectMove fh.target.cName fh.target.path fh.target.csName
          (cfg.segmentName (fh.target.path ++ "/" ++ toString env.now) fh.segmentID) false] ∧
    (Write cfg env fh data).fh.wroteSegment = false ∧
    (Write cfg env fh data).fh.target = fh.target := by
  rw [Write_past_reset cfg env fh data hphase]
  unfold writeBody
  rw [if_neg (not_le.mpr hover), if_pos hover]
  unfold promote
  simp [hws, hw, hmove, segmentPath]

/-- C9 at the failing input: five bytes are on the primary object, a chunk
of four does not fit in the segment size of eight, and the creation of the
manifest fails.  Write does not stop there: it marks the target segmented,
opens the segment writer, writes the chunk and returns normally, reporting
the four bytes as written. -/
theorem C9_manifest_failure_ignored :
    (Write (sampleCfg 8) envManifestFails sampleWriting [6, 7, 8, 9]).result = Result.ok 4 ∧
    (Write (sampleCfg 8) envManifestFails sampleWriting [6, 7, 8, 9]).events =
      [Event.wdClose "c" "obj",
        Event.objectMove "c" "obj" "c_segments" "obj/1700000000/0" true,
        Event.createManifest "c" "c_segments/obj/1700000000" "obj" false,
        Event.wdClose "c" "obj",
        Event.initSegment "c_segments" "obj/1700000000/1" [6, 7, 8, 9] true] ∧
    (Write (sampleCfg 8) envManifestFails sampleWriting [6, 7, 8, 9]).fh.target.segmented = true ∧
    (Write (sampleCfg 8) envManifestFails sampleWriting [6, 7, 8, 9]).fh.wroteSegment = true ∧
    (Write (sampleCfg 8) envManifestFails sampleWriting [6, 7, 8, 9]).fh.target.soBytes = 9 := by
  decide

/-! ## The writer after a failed open -/

/-- C10 at the failing input: on a freshly opened handle the first Write
fails to open the writer; it returns the error with truncate already set and
no writer.  The next Write skips the reset and calls a method of the absent
writer, in the append branch (a chunk that fits) as in the overflow branch
(a chunk that does not). -/
theorem C10_nil_writer_after_failed_open :
    Fresh sampleHandle ∧
    (Write (sampleCfg 8) envNewWriterFails sampleHandle [1]).result = Result.err Err.newWriter ∧
    (Write (sampleCfg 8) envNewWriterFails sampleHandle [1]).fh.truncate = true ∧
    (Write (sampleCfg 8) envNewWriterFails sampleHandle [1]).fh.wd = none ∧
    (Write (sampleCfg 8) envOk
      (Write (sampleCfg 8) envNewWriterFails sampleHandle [1]).fh [2]).result = Result.nilDeref ∧
    (Write (sampleCfg 8) envOk
      (Write (sampleCfg 8) envNewWriterFails sampleHandle [1]).fh
      [1, 2, 3, 4, 5, 6, 7, 8, 9]).result = Result.nilDeref := by
  decide

end Svfs
